import Mathlib

/-!
Verification of the OrderMatchingEngine repository: a shallow embedding of the
order data model (`src/src/Order.cpp`, `src/include/engine/Order.hpp`), the
limit order book with its matching algorithm (`src/src/OrderBook.cpp`,
`src/include/engine/OrderBook.hpp`) and the synchronous entry point of the
matching engine (`src/src/MatchingEngine.cpp`), together with theorems about
the claims of the specification.

Modelling conventions:
* `Order::Quantity` and `Order::OrderId` are `std::uint64_t`; they are modelled
  as `ℕ`.  All quantity arithmetic performed on a single `Order` keeps
  `filledQuantity ≤ quantity` (the only subtraction is
  `quantity_ - filledQuantity_`), so no wraparound is reachable there and `ℕ`
  is faithful on every reachable order.  The engine's statistics counters are
  different: they accumulate across calls and do wrap at reachable inputs, so
  every update to them is taken modulo `2 ^ 64` (see `processOrderSync`).
* `Order::Price` is `double`; the code only copies and compares prices (it
  never does arithmetic on them), and every finite double is a rational, so
  prices are modelled as `ℚ`, with the sentinel
  `std::numeric_limits<double>::max() = (2^53 - 1) * 2^971` kept exactly.
* Timestamps (`std::chrono` time points) are modelled as `ℕ`; the code only
  compares them with `<`.
* The C++ book stores `std::shared_ptr<Order>` and mutates orders in place;
  the embedding is functional: each operation returns the updated order /
  book.  `std::multiset` iterates in comparator order and `insert` places a
  new element after all equivalent ones (upper bound), which `multisetInsert`
  reproduces.  `orderMap_` maps ids to order pointers; its key set is what the
  claims observe, so it is modelled as the list of resting ids.
-/

namespace Engine

/-- `enum class OrderSide` (Order.hpp). -/
inductive OrderSide where
  | BUY
  | SELL
deriving DecidableEq

/-- `enum class OrderType` (Order.hpp).  The header of the newer revision
lists only `LIMIT`, but `OrderBook.cpp` branches on `OrderType::MARKET`;
the spec (§9) adopts the richer revision, so both constructors are kept. -/
inductive OrderType where
  | LIMIT
  | MARKET
deriving DecidableEq

/-- `enum class OrderStatus` (Order.hpp). -/
inductive OrderStatus where
  | NEW
  | PARTIALLY_FILLED
  | FILLED
  | CANCELED
  | REJECTED
deriving DecidableEq

abbrev OrderId : Type := ℕ
abbrev Price : Type := ℚ
abbrev Quantity : Type := ℕ
abbrev TimeStamp : Type := ℕ

/-- The sentinel returned by `OrderBook::getBestAskPrice` on an empty ask
side: `std::numeric_limits<double>::max()`, exactly `(2^53 - 1) * 2^971`. -/
def maxDoubleValue : ℚ := (2 ^ 53 - 1) * 2 ^ 971

/-- `class Order` (Order.hpp): id, side, type, price, quantity,
filled quantity, creation timestamp and status. -/
structure Order where
  id : ℕ
  side : OrderSide
  type : OrderType
  price : ℚ
  quantity : ℕ
  filledQuantity : ℕ
  timestamp : ℕ
  status : OrderStatus
deriving DecidableEq

/-- `Order::getRemainingQuantity`: `quantity_ - filledQuantity_`
(unsigned subtraction; `filledQuantity ≤ quantity` on every reachable
order, so truncated `ℕ` subtraction is faithful). -/
def Order.getRemainingQuantity (o : Order) : ℕ :=
  o.quantity - o.filledQuantity

/-- `Order::fill` (Order.cpp).  `fillQuantity` is unsigned, so the C++ guard
`fillQuantity <= 0` is `fillQuantity = 0`.  Returns the updated order and the
C++ return value (`true` exactly when the order became completely filled). -/
def Order.fill (o : Order) (fillQuantity : ℕ) : Order × Bool :=
  if fillQuantity = 0 ∨ fillQuantity > o.getRemainingQuantity then
    (o, false)
  else if o.filledQuantity + fillQuantity = o.quantity then
    ({ o with filledQuantity := o.filledQuantity + fillQuantity,
              status := OrderStatus.FILLED }, true)
  else
    ({ o with filledQuantity := o.filledQuantity + fillQuantity,
              status := OrderStatus.PARTIALLY_FILLED }, false)

/-- `Order::cancel` (Order.cpp): set status to `CANCELED` unless the order is
already `FILLED`. -/
def Order.cancel (o : Order) : Order :=
  if o.status ≠ OrderStatus.FILLED then
    { o with status := OrderStatus.CANCELED }
  else
    o

/-- `class Trade` (Trade.hpp): buy order id, sell order id, execution price,
executed quantity.  (The C++ record also carries a wall-clock timestamp set at
construction; no claim observes it, so it is not modelled.) -/
structure Trade where
  buyOrderId : ℕ
  sellOrderId : ℕ
  price : ℚ
  quantity : ℕ
deriving DecidableEq

/-- `BuyOrderComparator` (OrderBook.hpp): higher price first, then earlier
timestamp. -/
def BuyOrderComparator (lhs rhs : Order) : Prop :=
  if lhs.price ≠ rhs.price then lhs.price > rhs.price
  else lhs.timestamp < rhs.timestamp

instance : ∀ lhs rhs, Decidable (BuyOrderComparator lhs rhs) := by
  intro lhs rhs
  unfold BuyOrderComparator
  infer_instance

/-- `SellOrderComparator` (OrderBook.hpp): lower price first, then earlier
timestamp. -/
def SellOrderComparator (lhs rhs : Order) : Prop :=
  if lhs.price ≠ rhs.price then lhs.price < rhs.price
  else lhs.timestamp < rhs.timestamp

instance : ∀ lhs rhs, Decidable (SellOrderComparator lhs rhs) := by
  intro lhs rhs
  unfold SellOrderComparator
  infer_instance

/-- `std::multiset::insert`: the new element is placed before the first
element it compares strictly below (upper bound), i.e. after every element
equivalent to it, preserving arrival order among equivalents. -/
def multisetInsert (cmp : Order → Order → Prop) [DecidableRel cmp]
    (o : Order) : List Order → List Order
  | [] => [o]
  | e :: rest => if cmp o e then o :: e :: rest else e :: multisetInsert cmp o rest

/-- `class OrderBook` (OrderBook.hpp): the buy side ordered by
`BuyOrderComparator`, the sell side ordered by `SellOrderComparator`, and the
key set of `orderMap_`. -/
structure OrderBook where
  buyOrders : List Order
  sellOrders : List Order
  orderMap : List ℕ
deriving DecidableEq

def emptyBook : OrderBook := ⟨[], [], []⟩

/-- Result of one matching loop (`matchBuyOrder` / `matchSellOrder` of
OrderBook.cpp): the updated aggressor, the loop's `remainingQty`, the updated
opposite side, the ids erased from `orderMap_`, and the recorded trades. -/
structure MatchResult where
  order : Order
  remainingQty : ℕ
  oppositeSide : List Order
  removedIds : List ℕ
  trades : List Trade

/-- The `while` loop of `OrderBook::matchBuyOrder` (OrderBook.cpp lines
103-135), walking the ask side.  Each iteration consumes the best (front)
sell order; the sell order is removed when completely filled, otherwise the
loop variable `remainingQty` has reached `0` and the loop exits (a resting
order always has positive remaining quantity, so a partial fill of the head
exhausts the aggressor). -/
def matchBuyLoop (buyOrder : Order) (remainingQty : ℕ) :
    List Order → MatchResult
  | [] => ⟨buyOrder, remainingQty, [], [], []⟩
  | sellOrder :: rest =>
    if remainingQty = 0 then
      ⟨buyOrder, remainingQty, sellOrder :: rest, [], []⟩
    else if buyOrder.type = OrderType.LIMIT ∧ buyOrder.price < sellOrder.price then
      ⟨buyOrder, remainingQty, sellOrder :: rest, [], []⟩
    else
      let tradeQty := min remainingQty sellOrder.getRemainingQuantity
      let buyOrder' := (buyOrder.fill tradeQty).1
      let sellOrder' := (sellOrder.fill tradeQty).1
      let trade : Trade := ⟨buyOrder'.id, sellOrder'.id, sellOrder'.price, tradeQty⟩
      if sellOrder'.status = OrderStatus.FILLED then
        let s := matchBuyLoop buyOrder' (remainingQty - tradeQty) rest
        ⟨s.order, s.remainingQty, s.oppositeSide,
          sellOrder'.id :: s.removedIds, trade :: s.trades⟩
      else
        ⟨buyOrder', remainingQty - tradeQty, sellOrder' :: rest, [], [trade]⟩

/-- The `while` loop of `OrderBook::matchSellOrder` (OrderBook.cpp lines
150-182), walking the bid side; symmetric to `matchBuyLoop`. -/
def matchSellLoop (sellOrder : Order) (remainingQty : ℕ) :
    List Order → MatchResult
  | [] => ⟨sellOrder, remainingQty, [], [], []⟩
  | buyOrder :: rest =>
    if remainingQty = 0 then
      ⟨sellOrder, remainingQty, buyOrder :: rest, [], []⟩
    else if sellOrder.type = OrderType.LIMIT ∧ sellOrder.price > buyOrder.price then
      ⟨sellOrder, remainingQty, buyOrder :: rest, [], []⟩
    else
      let tradeQty := min remainingQty buyOrder.getRemainingQuantity
      let sellOrder' := (sellOrder.fill tradeQty).1
      let buyOrder' := (buyOrder.fill tradeQty).1
      let trade : Trade := ⟨buyOrder'.id, sellOrder'.id, buyOrder'.price, tradeQty⟩
      if buyOrder'.status = OrderStatus.FILLED then
        let s := matchSellLoop sellOrder' (remainingQty - tradeQty) rest
        ⟨s.order, s.remainingQty, s.oppositeSide,
          buyOrder'.id :: s.removedIds, trade :: s.trades⟩
      else
        ⟨sellOrder', remainingQty - tradeQty, buyOrder' :: rest, [], [trade]⟩

/-- `OrderBook::matchBuyOrder` (OrderBook.cpp lines 98-143): run the loop
starting from `remainingQty = buyOrder->getQuantity()`, then cancel an
unfilled market order. -/
def matchBuyOrder (buyOrder : Order) (book : OrderBook) :
    Order × OrderBook × List Trade :=
  let s := matchBuyLoop buyOrder buyOrder.quantity book.sellOrders
  let buyOrder' :=
    if buyOrder.type = OrderType.MARKET ∧ s.remainingQty > 0 then
      s.order.cancel
    else
      s.order
  (buyOrder',
   { book with
       sellOrders := s.oppositeSide,
       orderMap := book.orderMap.filter (fun i => i ∉ s.removedIds) },
   s.trades)

/-- `OrderBook::matchSellOrder` (OrderBook.cpp lines 145-190). -/
def matchSellOrder (sellOrder : Order) (book : OrderBook) :
    Order × OrderBook × List Trade :=
  let s := matchSellLoop sellOrder sellOrder.quantity book.buyOrders
  let sellOrder' :=
    if sellOrder.type = OrderType.MARKET ∧ s.remainingQty > 0 then
      s.order.cancel
    else
      s.order
  (sellOrder',
   { book with
       buyOrders := s.oppositeSide,
       orderMap := book.orderMap.filter (fun i => i ∉ s.removedIds) },
   s.trades)

/-- `OrderBook::addOrder` (OrderBook.cpp lines 11-40): match the incoming
order, then rest the remainder (limit orders only, not canceled, positive
remaining quantity), recording it in `orderMap_`.  Returns the updated book,
the updated incoming order and the trades of this call. -/
def addOrder (book : OrderBook) (order : Order) :
    OrderBook × Order × List Trade :=
  let r :=
    if order.side = OrderSide.BUY then matchBuyOrder order book
    else matchSellOrder order book
  let order' := r.1
  let book' := r.2.1
  let trades := r.2.2
  if order'.getRemainingQuantity > 0 ∧ order'.status ≠ OrderStatus.CANCELED ∧
      order'.type = OrderType.LIMIT then
    if order'.side = OrderSide.BUY then
      ({ book' with
           buyOrders := multisetInsert BuyOrderComparator order' book'.buyOrders,
           orderMap := book'.orderMap.insert order'.id },
       order', trades)
    else
      ({ book' with
           sellOrders := multisetInsert SellOrderComparator order' book'.sellOrders,
           orderMap := book'.orderMap.insert order'.id },
       order', trades)
  else
    (book', order', trades)

/-- `OrderBook::getBestBidPrice` (OrderBook.cpp lines 42-48): the price of
the front buy order, or the sentinel `0.0` when there are no bids. -/
def getBestBidPrice (book : OrderBook) : ℚ :=
  match book.buyOrders with
  | [] => 0
  | o :: _ => o.price

/-- `OrderBook::getBestAskPrice` (OrderBook.cpp lines 50-56): the price of
the front sell order, or the sentinel `std::numeric_limits<double>::max()`
when there are no asks. -/
def getBestAskPrice (book : OrderBook) : ℚ :=
  match book.sellOrders with
  | [] => maxDoubleValue
  | o :: _ => o.price

/-- Modelled from the spec: `best_bid() → Price?` — "the top-of-book prices,
absent when that side is empty" (spec §4.1).  Declared only to compare the
spec's optional-price interface against the code's sentinel-returning
`getBestBidPrice`; the repository's function is `getBestBidPrice`. -/
def bestBidPriceSpec (book : OrderBook) : Option ℚ :=
  (book.buyOrders.head?).map Order.price

/-- Modelled from the spec: `best_ask() → Price?`, absent when the ask side
is empty (spec §4.1); compare `getBestAskPrice`. -/
def bestAskPriceSpec (book : OrderBook) : Option ℚ :=
  (book.sellOrders.head?).map Order.price

/-- `struct MatchingEngineStats` (MatchingEngine.hpp): three
`std::atomic<uint64_t>` counters.  The values are modelled as `ℕ`, and every
update performed on them by `processOrderSync` is taken modulo `2 ^ 64`,
reproducing `uint64_t` wraparound. -/
structure MatchingEngineStats where
  totalOrdersProcessed : ℕ
  totalTradesExecuted : ℕ
  totalQuantityTraded : ℕ
deriving DecidableEq

/-- The state a `MatchingEngine` threads through `processOrderSync`: its
single order book and its statistics. -/
structure EngineState where
  orderBook : OrderBook
  stats : MatchingEngineStats
deriving DecidableEq

def initialEngineState : EngineState := ⟨emptyBook, ⟨0, 0, 0⟩⟩

/-- `MatchingEngine::processOrderSync` (MatchingEngine.cpp lines 58-73):
add the order to the book, then bump `totalOrdersProcessed` by one,
`totalTradesExecuted` by the number of trades, and `totalQuantityTraded`
once per trade by that trade's quantity, in a loop.  The counters are
`uint64_t`, so each `++` / `+=` wraps modulo `2 ^ 64`; the per-trade
accumulation is modelled as the corresponding fold, each step reduced
modulo `2 ^ 64`. -/
def processOrderSync (es : EngineState) (order : Order) :
    EngineState × Order × List Trade :=
  let r := addOrder es.orderBook order
  let book' := r.1
  let order' := r.2.1
  let trades := r.2.2
  (⟨book',
    ⟨(es.stats.totalOrdersProcessed + 1) % 2 ^ 64,
     (es.stats.totalTradesExecuted + trades.length) % 2 ^ 64,
     trades.foldl (fun acc t => (acc + t.quantity) % 2 ^ 64)
       es.stats.totalQuantityTraded⟩⟩,
   order', trades)

/-- Fold a sequence of orders through `addOrder`, keeping the book. -/
def addOrderSeq (book : OrderBook) (orders : List Order) : OrderBook :=
  orders.foldl (fun b o => (addOrder b o).1) book

/-- Fold a sequence of orders through `processOrderSync`. -/
def processSeq (es : EngineState) (orders : List Order) : EngineState :=
  orders.foldl (fun s o => (processOrderSync s o).1) es

/-- No statistics counter overflows `uint64_t` at any call of the given
sequence: at every step, the counter value plus its increment stays below
`2 ^ 64`. -/
def noStatsOverflow (es : EngineState) : List Order → Prop
  | [] => True
  | o :: rest =>
    (es.stats.totalOrdersProcessed + 1 < 2 ^ 64 ∧
     es.stats.totalTradesExecuted + ((processOrderSync es o).2.2).length < 2 ^ 64 ∧
     es.stats.totalQuantityTraded +
       (((processOrderSync es o).2.2).map Trade.quantity).sum < 2 ^ 64) ∧
    noStatsOverflow (processOrderSync es o).1 rest

instance noStatsOverflow.decidable :
    ∀ (orders : List Order) (es : EngineState), Decidable (noStatsOverflow es orders)
  | [], es => by
    unfold noStatsOverflow
    infer_instance
  | o :: rest, es => by
    haveI := noStatsOverflow.decidable rest (processOrderSync es o).1
    unfold noStatsOverflow
    infer_instance

/-! ### Basic lemmas about `Order.fill` and `Order.cancel` -/

@[simp] lemma Order.fill_id (o : Order) (q : ℕ) : ((o.fill q).1).id = o.id := by
  rw [Order.fill]; split_ifs <;> rfl

@[simp] lemma Order.fill_price (o : Order) (q : ℕ) : ((o.fill q).1).price = o.price := by
  rw [Order.fill]; split_ifs <;> rfl

@[simp] lemma Order.fill_type (o : Order) (q : ℕ) : ((o.fill q).1).type = o.type := by
  rw [Order.fill]; split_ifs <;> rfl

@[simp] lemma Order.fill_side (o : Order) (q : ℕ) : ((o.fill q).1).side = o.side := by
  rw [Order.fill]; split_ifs <;> rfl

@[simp] lemma Order.fill_timestamp (o : Order) (q : ℕ) :
    ((o.fill q).1).timestamp = o.timestamp := by
  rw [Order.fill]; split_ifs <;> rfl

@[simp] lemma Order.fill_quantity (o : Order) (q : ℕ) :
    ((o.fill q).1).quantity = o.quantity := by
  rw [Order.fill]; split_ifs <;> rfl

@[simp] lemma Order.cancel_id (o : Order) : o.cancel.id = o.id := by
  rw [Order.cancel]; split_ifs <;> rfl

@[simp] lemma Order.cancel_price (o : Order) : o.cancel.price = o.price := by
  rw [Order.cancel]; split_ifs <;> rfl

@[simp] lemma Order.cancel_type (o : Order) : o.cancel.type = o.type := by
  rw [Order.cancel]; split_ifs <;> rfl

@[simp] lemma Order.cancel_side (o : Order) : o.cancel.side = o.side := by
  rw [Order.cancel]; split_ifs <;> rfl

@[simp] lemma Order.cancel_quantity (o : Order) : o.cancel.quantity = o.quantity := by
  rw [Order.cancel]; split_ifs <;> rfl

@[simp] lemma Order.cancel_filledQuantity (o : Order) :
    o.cancel.filledQuantity = o.filledQuantity := by
  rw [Order.cancel]; split_ifs <;> rfl

lemma Order.cancel_status (o : Order) (h : o.status ≠ OrderStatus.FILLED) :
    o.cancel.status = OrderStatus.CANCELED := by
  rw [Order.cancel, if_pos h]

/-- An invalid fill (zero quantity or exceeding the remaining quantity)
returns `false` and leaves the order untouched. -/
lemma Order.fill_invalid (o : Order) (q : ℕ)
    (h : q = 0 ∨ q > o.getRemainingQuantity) : o.fill q = (o, false) := by
  rw [Order.fill, if_pos h]

lemma Order.fill_filledQuantity_of_valid (o : Order) (q : ℕ)
    (h0 : q ≠ 0) (hle : q ≤ o.getRemainingQuantity) :
    ((o.fill q).1).filledQuantity = o.filledQuantity + q := by
  rw [Order.fill]
  rw [if_neg (by push_neg; exact ⟨h0, hle⟩)]
  split_ifs <;> rfl

lemma Order.fill_status_filled_iff (o : Order) (q : ℕ)
    (h0 : q ≠ 0) (hle : q ≤ o.getRemainingQuantity) :
    (((o.fill q).1).status = OrderStatus.FILLED ↔ o.filledQuantity + q = o.quantity) := by
  rw [Order.fill]
  rw [if_neg (by push_neg; exact ⟨h0, hle⟩)]
  split_ifs with h
  · simpa using h
  · simpa using h

lemma Order.fill_getRemainingQuantity_of_valid (o : Order) (q : ℕ)
    (h0 : q ≠ 0) (hle : q ≤ o.getRemainingQuantity) :
    ((o.fill q).1).getRemainingQuantity = o.getRemainingQuantity - q := by
  have h1 := Order.fill_filledQuantity_of_valid o q h0 hle
  have h2 := Order.fill_quantity o q
  simp only [Order.getRemainingQuantity] at *
  omega

lemma Order.fill_le_of_valid (o : Order) (q : ℕ)
    (h0 : q ≠ 0) (hle : q ≤ o.getRemainingQuantity) :
    ((o.fill q).1).filledQuantity ≤ ((o.fill q).1).quantity := by
  have h1 := Order.fill_filledQuantity_of_valid o q h0 hle
  have h2 := Order.fill_quantity o q
  simp only [Order.getRemainingQuantity] at hle
  omega

/-- `fill` preserves the invariant that a `FILLED` order is completely
filled. -/
lemma Order.fill_full_inv (o : Order) (q : ℕ)
    (h : o.status = OrderStatus.FILLED → o.filledQuantity = o.quantity) :
    ((o.fill q).1).status = OrderStatus.FILLED →
      ((o.fill q).1).filledQuantity = ((o.fill q).1).quantity := by
  rw [Order.fill]
  split_ifs with h1 h2
  · simpa using h
  · intro _; simpa using h2
  · intro hc; simp at hc

/-! ### The matching loops: source of each trade (claim C1) -/

/-- Every trade recorded by the buy-side matching loop carries the aggressor's
id as buy id, and the id and price of some resting sell order of the ask
side. -/
lemma matchBuyLoop_trades_src (buyOrder : Order) (rq : ℕ) (asks : List Order) :
    ∀ t ∈ (matchBuyLoop buyOrder rq asks).trades,
      t.buyOrderId = buyOrder.id ∧ ∃ a ∈ asks, t.sellOrderId = a.id ∧ t.price = a.price := by
  induction asks generalizing buyOrder rq with
  | nil => intro t ht; simp [matchBuyLoop] at ht
  | cons sell rest ih =>
    intro t ht
    simp only [matchBuyLoop] at ht
    split_ifs at ht with h1 h2 h3
    · simp at ht
    · simp at ht
    · simp only [List.mem_cons] at ht
      rcases ht with rfl | ht
      · exact ⟨by simp, sell, by simp, by simp, by simp⟩
      · obtain ⟨hb, a, ha, hid, hp⟩ := ih _ _ t ht
        exact ⟨by simpa using hb, a, List.mem_cons_of_mem _ ha, hid, hp⟩
    · simp only [List.mem_singleton] at ht
      subst ht
      exact ⟨by simp, sell, by simp, by simp, by simp⟩

/-- Every trade recorded by the sell-side matching loop carries the
aggressor's id as sell id, and the id and price of some resting buy order of
the bid side. -/
lemma matchSellLoop_trades_src (sellOrder : Order) (rq : ℕ) (bids : List Order) :
    ∀ t ∈ (matchSellLoop sellOrder rq bids).trades,
      t.sellOrderId = sellOrder.id ∧ ∃ b ∈ bids, t.buyOrderId = b.id ∧ t.price = b.price := by
  induction bids generalizing sellOrder rq with
  | nil => intro t ht; simp [matchSellLoop] at ht
  | cons buy rest ih =>
    intro t ht
    simp only [matchSellLoop] at ht
    split_ifs at ht with h1 h2 h3
    · simp at ht
    · simp at ht
    · simp only [List.mem_cons] at ht
      rcases ht with rfl | ht
      · exact ⟨by simp, buy, by simp, by simp, by simp⟩
      · obtain ⟨hb, a, ha, hid, hp⟩ := ih _ _ t ht
        exact ⟨by simpa using hb, a, List.mem_cons_of_mem _ ha, hid, hp⟩
    · simp only [List.mem_singleton] at ht
      subst ht
      exact ⟨by simp, buy, by simp, by simp, by simp⟩

/-! ### The matching loops: identity of the aggressor -/

@[simp] lemma matchBuyLoop_order_id (buyOrder : Order) (rq : ℕ) (asks : List Order) :
    (matchBuyLoop buyOrder rq asks).order.id = buyOrder.id := by
  induction asks generalizing buyOrder rq with
  | nil => simp [matchBuyLoop]
  | cons sell rest ih =>
    simp only [matchBuyLoop]
    split_ifs <;> simp [ih]

@[simp] lemma matchBuyLoop_order_type (buyOrder : Order) (rq : ℕ) (asks : List Order) :
    (matchBuyLoop buyOrder rq asks).order.type = buyOrder.type := by
  induction asks generalizing buyOrder rq with
  | nil => simp [matchBuyLoop]
  | cons sell rest ih =>
    simp only [matchBuyLoop]
    split_ifs <;> simp [ih]

@[simp] lemma matchBuyLoop_order_side (buyOrder : Order) (rq : ℕ) (asks : List Order) :
    (matchBuyLoop buyOrder rq asks).order.side = buyOrder.side := by
  induction asks generalizing buyOrder rq with
  | nil => simp [matchBuyLoop]
  | cons sell rest ih =>
    simp only [matchBuyLoop]
    split_ifs <;> simp [ih]

@[simp] lemma matchSellLoop_order_id (sellOrder : Order) (rq : ℕ) (bids : List Order) :
    (matchSellLoop sellOrder rq bids).order.id = sellOrder.id := by
  induction bids generalizing sellOrder rq with
  | nil => simp [matchSellLoop]
  | cons buy rest ih =>
    simp only [matchSellLoop]
    split_ifs <;> simp [ih]

@[simp] lemma matchSellLoop_order_type (sellOrder : Order) (rq : ℕ) (bids : List Order) :
    (matchSellLoop sellOrder rq bids).order.type = sellOrder.type := by
  induction bids generalizing sellOrder rq with
  | nil => simp [matchSellLoop]
  | cons buy rest ih =>
    simp only [matchSellLoop]
    split_ifs <;> simp [ih]

@[simp] lemma matchSellLoop_order_side (sellOrder : Order) (rq : ℕ) (bids : List Order) :
    (matchSellLoop sellOrder rq bids).order.side = sellOrder.side := by
  induction bids generalizing sellOrder rq with
  | nil => simp [matchSellLoop]
  | cons buy rest ih =>
    simp only [matchSellLoop]
    split_ifs <;> simp [ih]

/-! ### The matching loops: conservation of quantity (claim C2) -/

/-- As long as the loop variable `remainingQty` equals the aggressor's actual
remaining quantity, every quantity traded by the buy-side loop is also
applied to the aggressor's `filledQuantity`, and the loop variable keeps
tracking the remaining quantity. -/
lemma matchBuyLoop_conservation (buyOrder : Order) (rq : ℕ) (asks : List Order)
    (hq : buyOrder.filledQuantity ≤ buyOrder.quantity)
    (hr : rq = buyOrder.getRemainingQuantity) :
    (matchBuyLoop buyOrder rq asks).order.quantity = buyOrder.quantity ∧
    (matchBuyLoop buyOrder rq asks).order.filledQuantity =
      buyOrder.filledQuantity + (((matchBuyLoop buyOrder rq asks).trades.map Trade.quantity).sum) ∧
    (matchBuyLoop buyOrder rq asks).remainingQty =
      (matchBuyLoop buyOrder rq asks).order.getRemainingQuantity := by
  induction asks generalizing buyOrder rq with
  | nil => simpa [matchBuyLoop] using hr
  | cons sell rest ih =>
    simp only [matchBuyLoop]
    split_ifs with h1 h2 h3
    · simpa using hr
    · simpa using hr
    · -- head sell completely filled: recurse
      dsimp only
      by_cases htq : min rq sell.getRemainingQuantity = 0
      · -- degenerate zero-quantity trade: the aggressor is unchanged
        rw [Order.fill_invalid buyOrder _ (Or.inl htq)]
        have h := ih buyOrder (rq - min rq sell.getRemainingQuantity)
          hq (by rw [htq, Nat.sub_zero]; exact hr)
        simp only [htq, Nat.sub_zero] at h
        simp only [List.map_cons, List.sum_cons, htq, Nat.sub_zero, Nat.zero_add]
        exact ⟨h.1, h.2.1, h.2.2⟩
      · have hle : min rq sell.getRemainingQuantity ≤ buyOrder.getRemainingQuantity := by
          rw [← hr]; exact Nat.min_le_left _ _
        have hfq := Order.fill_filledQuantity_of_valid buyOrder _ htq hle
        have hquant := Order.fill_quantity buyOrder (min rq sell.getRemainingQuantity)
        have hq' := Order.fill_le_of_valid buyOrder _ htq hle
        have hr' : rq - min rq sell.getRemainingQuantity =
            ((buyOrder.fill (min rq sell.getRemainingQuantity)).1).getRemainingQuantity := by
          rw [Order.fill_getRemainingQuantity_of_valid buyOrder _ htq hle, ← hr]
        have h := ih _ _ hq' hr'
        refine ⟨by rw [h.1, hquant], ?_, h.2.2⟩
        simp only [List.map_cons, List.sum_cons]
        rw [h.2.1, hfq]
        omega
    · -- head sell only partially filled: the loop exits
      dsimp only
      by_cases htq : min rq sell.getRemainingQuantity = 0
      · rw [Order.fill_invalid buyOrder _ (Or.inl htq)]
        refine ⟨rfl, by simp [htq], ?_⟩
        rw [htq, Nat.sub_zero]
        exact hr
      · have hle : min rq sell.getRemainingQuantity ≤ buyOrder.getRemainingQuantity := by
          rw [← hr]; exact Nat.min_le_left _ _
        have hfq := Order.fill_filledQuantity_of_valid buyOrder _ htq hle
        have hquant := Order.fill_quantity buyOrder (min rq sell.getRemainingQuantity)
        refine ⟨hquant, ?_, ?_⟩
        · simp only [List.map_cons, List.map_nil, List.sum_cons, List.sum_nil]
          rw [hfq]
          omega
        · rw [Order.fill_getRemainingQuantity_of_valid buyOrder _ htq hle, ← hr]

/-- Sell-side counterpart of `matchBuyLoop_conservation`. -/
lemma matchSellLoop_conservation (sellOrder : Order) (rq : ℕ) (bids : List Order)
    (hq : sellOrder.filledQuantity ≤ sellOrder.quantity)
    (hr : rq = sellOrder.getRemainingQuantity) :
    (matchSellLoop sellOrder rq bids).order.quantity = sellOrder.quantity ∧
    (matchSellLoop sellOrder rq bids).order.filledQuantity =
      sellOrder.filledQuantity + (((matchSellLoop sellOrder rq bids).trades.map Trade.quantity).sum) ∧
    (matchSellLoop sellOrder rq bids).remainingQty =
      (matchSellLoop sellOrder rq bids).order.getRemainingQuantity := by
  induction bids generalizing sellOrder rq with
  | nil => simpa [matchSellLoop] using hr
  | cons buy rest ih =>
    simp only [matchSellLoop]
    split_ifs with h1 h2 h3
    · simpa using hr
    · simpa using hr
    · dsimp only
      by_cases htq : min rq buy.getRemainingQuantity = 0
      · rw [Order.fill_invalid sellOrder _ (Or.inl htq)]
        have h := ih sellOrder (rq - min rq buy.getRemainingQuantity)
          hq (by rw [htq, Nat.sub_zero]; exact hr)
        simp only [htq, Nat.sub_zero] at h
        simp only [List.map_cons, List.sum_cons, htq, Nat.sub_zero, Nat.zero_add]
        exact ⟨h.1, h.2.1, h.2.2⟩
      · have hle : min rq buy.getRemainingQuantity ≤ sellOrder.getRemainingQuantity := by
          rw [← hr]; exact Nat.min_le_left _ _
        have hfq := Order.fill_filledQuantity_of_valid sellOrder _ htq hle
        have hquant := Order.fill_quantity sellOrder (min rq buy.getRemainingQuantity)
        have hq' := Order.fill_le_of_valid sellOrder _ htq hle
        have hr' : rq - min rq buy.getRemainingQuantity =
            ((sellOrder.fill (min rq buy.getRemainingQuantity)).1).getRemainingQuantity := by
          rw [Order.fill_getRemainingQuantity_of_valid sellOrder _ htq hle, ← hr]
        have h := ih _ _ hq' hr'
        refine ⟨by rw [h.1, hquant], ?_, h.2.2⟩
        simp only [List.map_cons, List.sum_cons]
        rw [h.2.1, hfq]
        omega
    · dsimp only
      by_cases htq : min rq buy.getRemainingQuantity = 0
      · rw [Order.fill_invalid sellOrder _ (Or.inl htq)]
        refine ⟨rfl, by simp [htq], ?_⟩
        rw [htq, Nat.sub_zero]
        exact hr
      · have hle : min rq buy.getRemainingQuantity ≤ sellOrder.getRemainingQuantity := by
          rw [← hr]; exact Nat.min_le_left _ _
        have hfq := Order.fill_filledQuantity_of_valid sellOrder _ htq hle
        have hquant := Order.fill_quantity sellOrder (min rq buy.getRemainingQuantity)
        refine ⟨hquant, ?_, ?_⟩
        · simp only [List.map_cons, List.map_nil, List.sum_cons, List.sum_nil]
          rw [hfq]
          omega
        · rw [Order.fill_getRemainingQuantity_of_valid sellOrder _ htq hle, ← hr]

/-! ### The matching loops: a `FILLED` aggressor is completely filled -/

lemma matchBuyLoop_full_inv (buyOrder : Order) (rq : ℕ) (asks : List Order)
    (h : buyOrder.status = OrderStatus.FILLED → buyOrder.filledQuantity = buyOrder.quantity) :
    (matchBuyLoop buyOrder rq asks).order.status = OrderStatus.FILLED →
      (matchBuyLoop buyOrder rq asks).order.filledQuantity =
        (matchBuyLoop buyOrder rq asks).order.quantity := by
  induction asks generalizing buyOrder rq with
  | nil => simpa [matchBuyLoop] using h
  | cons sell rest ih =>
    simp only [matchBuyLoop]
    split_ifs with h1 h2 h3
    · simpa using h
    · simpa using h
    · exact ih _ _ (Order.fill_full_inv buyOrder _ h)
    · exact Order.fill_full_inv buyOrder _ h

/-! ### The matching loops consume the opposite side front to back (claim C4) -/

/-- The resting sell orders hit by the buy-side loop are exactly an initial
segment of the ask side, in order: the list of sell ids of the trades is the
id image of a prefix of the ask list. -/
lemma matchBuyLoop_trade_ids (buyOrder : Order) (rq : ℕ) (asks : List Order) :
    (matchBuyLoop buyOrder rq asks).trades.map Trade.sellOrderId =
      (asks.take (matchBuyLoop buyOrder rq asks).trades.length).map Order.id := by
  induction asks generalizing buyOrder rq with
  | nil => simp [matchBuyLoop]
  | cons sell rest ih =>
    simp only [matchBuyLoop]
    split_ifs with h1 h2 h3
    · simp
    · simp
    · dsimp only
      simp only [List.map_cons, List.length_cons, List.take_succ_cons, Order.fill_id]
      rw [ih]
    · dsimp only
      simp

/-- Bid-side counterpart of `matchBuyLoop_trade_ids`. -/
lemma matchSellLoop_trade_ids (sellOrder : Order) (rq : ℕ) (bids : List Order) :
    (matchSellLoop sellOrder rq bids).trades.map Trade.buyOrderId =
      (bids.take (matchSellLoop sellOrder rq bids).trades.length).map Order.id := by
  induction bids generalizing sellOrder rq with
  | nil => simp [matchSellLoop]
  | cons buy rest ih =>
    simp only [matchSellLoop]
    split_ifs with h1 h2 h3
    · simp
    · simp
    · dsimp only
      simp only [List.map_cons, List.length_cons, List.take_succ_cons, Order.fill_id]
      rw [ih]
    · dsimp only
      simp

/-- If a list of ids is the id image of a prefix of `side` (with no duplicate
ids on `side`), then any id of position `j` appearing in the list forces every
earlier position `i < j` to appear as well, at the matching earlier index. -/
lemma prefix_ids_consumed (ids : List ℕ) (side : List Order)
    (hpre : ids = (side.take ids.length).map Order.id)
    (hnd : (side.map Order.id).Nodup)
    (i j : ℕ) (hij : i < j) (hj : j < side.length)
    (hmem : (side.get ⟨j, hj⟩).id ∈ ids) :
    ∃ (hi2 : i < ids.length) (hj2 : j < ids.length),
      ids.get ⟨i, hi2⟩ = (side.get ⟨i, by omega⟩).id ∧
        ids.get ⟨j, hj2⟩ = (side.get ⟨j, hj⟩).id := by
  have hlen : ids.length ≤ side.length := by
    have := congrArg List.length hpre
    simp at this
    omega
  have hget : ∀ (m : ℕ) (hm : m < ids.length),
      ids.get ⟨m, hm⟩ = (side.get ⟨m, by omega⟩).id := by
    intro m hm
    have e1 := List.get_of_eq hpre ⟨m, hm⟩
    rw [e1]
    simp [List.get_eq_getElem, List.getElem_map, List.getElem_take]
  obtain ⟨k, hk, hkeq⟩ := List.mem_iff_getElem.mp hmem
  have hkside : k < side.length := by omega
  have hkj : k = j := by
    have hkm : k < (side.map Order.id).length := by simp; omega
    have hjm : j < (side.map Order.id).length := by simp; omega
    have h1 : (side.map Order.id)[k] = (side.map Order.id)[j] := by
      rw [List.getElem_map, List.getElem_map]
      have := hget k hk
      simp only [List.get_eq_getElem] at this hkeq
      rw [← this, hkeq]
    exact hnd.getElem_inj_iff.mp h1
  subst hkj
  exact ⟨by omega, hk, hget i (by omega), hget k hk⟩

/-- In a pairwise-ordered list, an element that may not come after another
(w.r.t. the ordering) sits at a strictly earlier index. -/
lemma pairwise_earlier_index {R : Order → Order → Prop} {l : List Order}
    {r1 r2 : Order} (hord : l.Pairwise R) (h1 : r1 ∈ l) (h2 : r2 ∈ l)
    (hne : r1 ≠ r2) (hnR : ¬ R r2 r1) :
    ∃ (i j : ℕ) (hi : i < l.length) (hj : j < l.length),
      i < j ∧ l.get ⟨i, hi⟩ = r1 ∧ l.get ⟨j, hj⟩ = r2 := by
  obtain ⟨i, hi, hieq⟩ := List.mem_iff_getElem.mp h1
  obtain ⟨j, hj, hjeq⟩ := List.mem_iff_getElem.mp h2
  rcases lt_trichotomy i j with hij | hij | hij
  · exact ⟨i, j, hi, hj, hij, by simpa using hieq, by simpa using hjeq⟩
  · exfalso
    apply hne
    subst hij
    rw [← hieq, ← hjeq]
  · exfalso
    apply hnR
    have := List.pairwise_iff_getElem.mp hord j i hj hi hij
    rwa [hieq, hjeq] at this

/-! ### Ordering of the book sides -/

/-- The (non-strict) order in which the ask side is kept: ascending price,
ties broken by ascending timestamp. -/
def askOrdered (a b : Order) : Prop :=
  a.price < b.price ∨ (a.price = b.price ∧ a.timestamp ≤ b.timestamp)

/-- The (non-strict) order in which the bid side is kept: descending price,
ties broken by ascending timestamp. -/
def bidOrdered (a b : Order) : Prop :=
  b.price < a.price ∨ (a.price = b.price ∧ a.timestamp ≤ b.timestamp)

instance : DecidableRel askOrdered := by
  intro a b
  unfold askOrdered
  infer_instance

instance : DecidableRel bidOrdered := by
  intro a b
  unfold bidOrdered
  infer_instance

lemma askOrdered_trans : Transitive askOrdered := by
  rintro a b c (h1 | ⟨h1, h1t⟩) (h2 | ⟨h2, h2t⟩)
  · exact Or.inl (lt_trans h1 h2)
  · exact Or.inl (h2 ▸ h1)
  · exact Or.inl (h1 ▸ h2)
  · exact Or.inr ⟨h1.trans h2, le_trans h1t h2t⟩

lemma bidOrdered_trans : Transitive bidOrdered := by
  rintro a b c (h1 | ⟨h1, h1t⟩) (h2 | ⟨h2, h2t⟩)
  · exact Or.inl (lt_trans h2 h1)
  · exact Or.inl (h2 ▸ h1)
  · exact Or.inl (h1 ▸ h2)
  · exact Or.inr ⟨h1.trans h2, le_trans h1t h2t⟩

lemma askOrdered_price_le {a b : Order} (h : askOrdered a b) : a.price ≤ b.price := by
  rcases h with h | ⟨h, _⟩
  · exact le_of_lt h
  · exact le_of_eq h

lemma bidOrdered_price_ge {a b : Order} (h : bidOrdered a b) : b.price ≤ a.price := by
  rcases h with h | ⟨h, _⟩
  · exact le_of_lt h
  · exact le_of_eq h.symm

lemma askOrdered_of_fields {a a' b : Order} (hp : a'.price = a.price)
    (ht : a'.timestamp = a.timestamp) (h : askOrdered a b) : askOrdered a' b := by
  unfold askOrdered at *
  rw [hp, ht]
  exact h

lemma bidOrdered_of_fields {a a' b : Order} (hp : a'.price = a.price)
    (ht : a'.timestamp = a.timestamp) (h : bidOrdered a b) : bidOrdered a' b := by
  unfold bidOrdered at *
  rw [hp, ht]
  exact h

lemma sellCmp_askOrdered {o e : Order} (h : SellOrderComparator o e) : askOrdered o e := by
  unfold SellOrderComparator at h
  unfold askOrdered
  split_ifs at h with hp
  · exact Or.inl h
  · push_neg at hp
    exact Or.inr ⟨hp, le_of_lt h⟩

lemma not_sellCmp_askOrdered {o e : Order} (h : ¬ SellOrderComparator o e) :
    askOrdered e o := by
  unfold SellOrderComparator at h
  unfold askOrdered
  split_ifs at h with hp
  · push_neg at h
    exact Or.inl (lt_of_le_of_ne h (Ne.symm hp))
  · push_neg at h hp
    exact Or.inr ⟨hp.symm, h⟩

lemma buyCmp_bidOrdered {o e : Order} (h : BuyOrderComparator o e) : bidOrdered o e := by
  unfold BuyOrderComparator at h
  unfold bidOrdered
  split_ifs at h with hp
  · exact Or.inl h
  · push_neg at hp
    exact Or.inr ⟨hp, le_of_lt h⟩

lemma not_buyCmp_bidOrdered {o e : Order} (h : ¬ BuyOrderComparator o e) :
    bidOrdered e o := by
  unfold BuyOrderComparator at h
  unfold bidOrdered
  split_ifs at h with hp
  · push_neg at h
    exact Or.inl (lt_of_le_of_ne h hp)
  · push_neg at h hp
    exact Or.inr ⟨hp.symm, h⟩

/-! ### `multisetInsert` -/

lemma mem_multisetInsert (cmp : Order → Order → Prop) [DecidableRel cmp]
    (o x : Order) (l : List Order) :
    x ∈ multisetInsert cmp o l ↔ x = o ∨ x ∈ l := by
  induction l with
  | nil => simp [multisetInsert]
  | cons e rest ih =>
    rw [multisetInsert]
    split_ifs with h
    · simp
    · simp only [List.mem_cons, ih]
      tauto

/-- `multisetInsert` preserves any transitive relation compatible with the
comparator on pairwise-ordered lists. -/
lemma multisetInsert_pairwise {cmp : Order → Order → Prop} [DecidableRel cmp]
    {R : Order → Order → Prop} (htr : Transitive R) {o : Order}
    (h1 : ∀ b, cmp o b → R o b) (h2 : ∀ b, ¬ cmp o b → R b o)
    {l : List Order} (hl : l.Pairwise R) :
    (multisetInsert cmp o l).Pairwise R := by
  induction l with
  | nil => simp [multisetInsert]
  | cons e rest ih =>
    rw [List.pairwise_cons] at hl
    rw [multisetInsert]
    split_ifs with h
    · rw [List.pairwise_cons]
      refine ⟨?_, List.pairwise_cons.2 hl⟩
      intro x hx
      rcases List.mem_cons.1 hx with rfl | hx
      · exact h1 _ h
      · exact htr (h1 _ h) (hl.1 x hx)
    · rw [List.pairwise_cons]
      refine ⟨?_, ih hl.2⟩
      intro x hx
      rcases (mem_multisetInsert cmp o x rest).1 hx with rfl | hx
      · exact h2 _ h
      · exact hl.1 x hx

/-- Inserting `o` into a pairwise-ordered list places it strictly after any
element `e` already present that carries the same price and timestamp: among
equivalents, `std::multiset::insert` keeps arrival order. -/
lemma multisetInsert_after_equiv {cmp : Order → Order → Prop} [DecidableRel cmp]
    {R : Order → Order → Prop} {o : Order}
    (hself : ∀ e, e.price = o.price → e.timestamp = o.timestamp → ¬ cmp o e)
    (hblock : ∀ e1 e2, cmp o e1 → R e1 e2 → e2.price = o.price →
      e2.timestamp = o.timestamp → False)
    {l : List Order} (hord : l.Pairwise R) {e : Order} (he : e ∈ l)
    (hp : e.price = o.price) (ht : e.timestamp = o.timestamp) :
    ∃ (i j : ℕ) (hi : i < (multisetInsert cmp o l).length)
      (hj : j < (multisetInsert cmp o l).length),
      i < j ∧ (multisetInsert cmp o l).get ⟨i, hi⟩ = e ∧
        (multisetInsert cmp o l).get ⟨j, hj⟩ = o := by
  induction l with
  | nil => simp at he
  | cons a rest ih =>
    by_cases hcmp : cmp o a
    · exfalso
      rcases List.mem_cons.1 he with rfl | he2
      · exact hself e hp ht hcmp
      · exact hblock a e hcmp ((List.pairwise_cons.1 hord).1 e he2) hp ht
    · rw [multisetInsert, if_neg hcmp]
      rcases List.mem_cons.1 he with rfl | he2
      · have homem : o ∈ multisetInsert cmp o rest :=
          (mem_multisetInsert cmp o o rest).2 (Or.inl rfl)
        obtain ⟨k, hk, hkeq⟩ := List.mem_iff_getElem.mp homem
        refine ⟨0, k + 1, by simp, by simp; omega, by omega, rfl, ?_⟩
        simpa using hkeq
      · obtain ⟨i, j, hi, hj, hij, hie, hjo⟩ := ih (List.Pairwise.of_cons hord) he2
        refine ⟨i + 1, j + 1, by simp; omega, by simp; omega, by omega, ?_, ?_⟩
        · simpa using hie
        · simpa using hjo

/-- Specialisation of `multisetInsert_after_equiv` to the ask side. -/
lemma multisetInsert_sell_after_equiv {o : Order} {l : List Order}
    (hord : l.Pairwise askOrdered) {e : Order} (he : e ∈ l)
    (hp : e.price = o.price) (ht : e.timestamp = o.timestamp) :
    ∃ (i j : ℕ) (hi : i < (multisetInsert SellOrderComparator o l).length)
      (hj : j < (multisetInsert SellOrderComparator o l).length),
      i < j ∧ (multisetInsert SellOrderComparator o l).get ⟨i, hi⟩ = e ∧
        (multisetInsert SellOrderComparator o l).get ⟨j, hj⟩ = o := by
  refine multisetInsert_after_equiv ?_ ?_ hord he hp ht
  · intro e2 hp2 ht2 hcmp
    unfold SellOrderComparator at hcmp
    split_ifs at hcmp with h
    · exact h hp2.symm
    · omega
  · intro e1 e2 hcmp hR hp2 ht2
    have hle := askOrdered_price_le hR
    unfold SellOrderComparator at hcmp
    split_ifs at hcmp with h
    · linarith
    · push_neg at h
      rcases hR with hlt | ⟨hpe, hte⟩
      · linarith
      · omega

/-- Specialisation of `multisetInsert_after_equiv` to the bid side. -/
lemma multisetInsert_buy_after_equiv {o : Order} {l : List Order}
    (hord : l.Pairwise bidOrdered) {e : Order} (he : e ∈ l)
    (hp : e.price = o.price) (ht : e.timestamp = o.timestamp) :
    ∃ (i j : ℕ) (hi : i < (multisetInsert BuyOrderComparator o l).length)
      (hj : j < (multisetInsert BuyOrderComparator o l).length),
      i < j ∧ (multisetInsert BuyOrderComparator o l).get ⟨i, hi⟩ = e ∧
        (multisetInsert BuyOrderComparator o l).get ⟨j, hj⟩ = o := by
  refine multisetInsert_after_equiv ?_ ?_ hord he hp ht
  · intro e2 hp2 ht2 hcmp
    unfold BuyOrderComparator at hcmp
    split_ifs at hcmp with h
    · exact h hp2.symm
    · omega
  · intro e1 e2 hcmp hR hp2 ht2
    have hge := bidOrdered_price_ge hR
    unfold BuyOrderComparator at hcmp
    split_ifs at hcmp with h
    · linarith
    · push_neg at h
      rcases hR with hlt | ⟨hpe, hte⟩
      · linarith
      · omega

/-! ### The matching loops: structure of the surviving side (claim C3) -/

/-- Walking the ask side preserves its ordering, keeps every surviving
resting order partially unfilled, only ever exposes prices that were already
on the side, and can only leave the aggressor with remaining quantity when
every surviving ask is strictly above a limit aggressor's price. -/
lemma matchBuyLoop_side_spec (buyOrder : Order) (rq : ℕ) (asks : List Order)
    (hord : asks.Pairwise askOrdered)
    (hpos : ∀ o ∈ asks, o.filledQuantity < o.quantity) :
    (matchBuyLoop buyOrder rq asks).oppositeSide.Pairwise askOrdered ∧
    (∀ o ∈ (matchBuyLoop buyOrder rq asks).oppositeSide,
      o.filledQuantity < o.quantity) ∧
    (∀ o ∈ (matchBuyLoop buyOrder rq asks).oppositeSide,
      ∃ a ∈ asks, o.price = a.price) ∧
    (buyOrder.type = OrderType.LIMIT → (matchBuyLoop buyOrder rq asks).remainingQty > 0 →
      ∀ o ∈ (matchBuyLoop buyOrder rq asks).oppositeSide, buyOrder.price < o.price) := by
  induction asks generalizing buyOrder rq with
  | nil => simp [matchBuyLoop]
  | cons sell rest ih =>
    simp only [matchBuyLoop]
    split_ifs with h1 h2 h3
    · -- the aggressor is exhausted before this iteration
      subst h1
      refine ⟨hord, hpos, fun o ho => ⟨o, ho, rfl⟩, ?_⟩
      intro _ h
      simp at h
    · -- a limit aggressor stops below the best ask
      refine ⟨hord, hpos, fun o ho => ⟨o, ho, rfl⟩, fun _ _ o ho => ?_⟩
      rcases List.mem_cons.1 ho with rfl | ho
      · exact h2.2
      · exact lt_of_lt_of_le h2.2
          (askOrdered_price_le ((List.pairwise_cons.1 hord).1 o ho))
    · -- head ask completely filled and removed: recurse
      dsimp only
      have h := ih ((buyOrder.fill (min rq sell.getRemainingQuantity)).1)
        (rq - min rq sell.getRemainingQuantity)
        (List.Pairwise.of_cons hord) (fun o ho => hpos o (List.mem_cons_of_mem _ ho))
      refine ⟨h.1, h.2.1, ?_, ?_⟩
      · intro o ho
        obtain ⟨a, ha, hp⟩ := h.2.2.1 o ho
        exact ⟨a, List.mem_cons_of_mem _ ha, hp⟩
      · intro htype hrq o ho
        have := h.2.2.2 (by simpa using htype) hrq o ho
        simpa using this
    · -- head ask only partially filled: the loop exits
      dsimp only
      have hsellpos := hpos sell (List.mem_cons_self _ _)
      have hrem : sell.getRemainingQuantity ≠ 0 := by
        unfold Order.getRemainingQuantity
        omega
      have htq : min rq sell.getRemainingQuantity ≠ 0 := by
        unfold Order.getRemainingQuantity
        omega
      have htle : min rq sell.getRemainingQuantity ≤ sell.getRemainingQuantity :=
        Nat.min_le_right _ _
      have hfq := Order.fill_filledQuantity_of_valid sell _ htq htle
      have hquant := Order.fill_quantity sell (min rq sell.getRemainingQuantity)
      have hne : sell.filledQuantity + min rq sell.getRemainingQuantity ≠ sell.quantity := by
        intro hcontra
        exact h3 ((Order.fill_status_filled_iff sell _ htq htle).2 hcontra)
      refine ⟨?_, ?_, ?_, ?_⟩
      · rw [List.pairwise_cons] at hord ⊢
        exact ⟨fun x hx => askOrdered_of_fields (by simp) (by simp) (hord.1 x hx), hord.2⟩
      · intro o ho
        rcases List.mem_cons.1 ho with rfl | ho
        · unfold Order.getRemainingQuantity at hfq hquant hne ⊢
          rw [hfq, hquant]
          omega
        · exact hpos o (List.mem_cons_of_mem _ ho)
      · intro o ho
        rcases List.mem_cons.1 ho with rfl | ho
        · exact ⟨sell, List.mem_cons_self _ _, by simp⟩
        · exact ⟨o, List.mem_cons_of_mem _ ho, rfl⟩
      · -- the aggressor is in fact exhausted here, so this case is vacuous
        intro _ hrq
        exfalso
        unfold Order.getRemainingQuantity at hne hrq
        omega

/-- Bid-side counterpart of `matchBuyLoop_side_spec`. -/
lemma matchSellLoop_side_spec (sellOrder : Order) (rq : ℕ) (bids : List Order)
    (hord : bids.Pairwise bidOrdered)
    (hpos : ∀ o ∈ bids, o.filledQuantity < o.quantity) :
    (matchSellLoop sellOrder rq bids).oppositeSide.Pairwise bidOrdered ∧
    (∀ o ∈ (matchSellLoop sellOrder rq bids).oppositeSide,
      o.filledQuantity < o.quantity) ∧
    (∀ o ∈ (matchSellLoop sellOrder rq bids).oppositeSide,
      ∃ a ∈ bids, o.price = a.price) ∧
    (sellOrder.type = OrderType.LIMIT → (matchSellLoop sellOrder rq bids).remainingQty > 0 →
      ∀ o ∈ (matchSellLoop sellOrder rq bids).oppositeSide, o.price < sellOrder.price) := by
  induction bids generalizing sellOrder rq with
  | nil => simp [matchSellLoop]
  | cons buy rest ih =>
    simp only [matchSellLoop]
    split_ifs with h1 h2 h3
    · subst h1
      refine ⟨hord, hpos, fun o ho => ⟨o, ho, rfl⟩, ?_⟩
      intro _ h
      simp at h
    · refine ⟨hord, hpos, fun o ho => ⟨o, ho, rfl⟩, fun _ _ o ho => ?_⟩
      rcases List.mem_cons.1 ho with rfl | ho
      · exact h2.2
      · exact lt_of_le_of_lt
          (bidOrdered_price_ge ((List.pairwise_cons.1 hord).1 o ho)) h2.2
    · dsimp only
      have h := ih ((sellOrder.fill (min rq buy.getRemainingQuantity)).1)
        (rq - min rq buy.getRemainingQuantity)
        (List.Pairwise.of_cons hord) (fun o ho => hpos o (List.mem_cons_of_mem _ ho))
      refine ⟨h.1, h.2.1, ?_, ?_⟩
      · intro o ho
        obtain ⟨a, ha, hp⟩ := h.2.2.1 o ho
        exact ⟨a, List.mem_cons_of_mem _ ha, hp⟩
      · intro htype hrq o ho
        have := h.2.2.2 (by simpa using htype) hrq o ho
        simpa using this
    · dsimp only
      have hbuypos := hpos buy (List.mem_cons_self _ _)
      have hrem : buy.getRemainingQuantity ≠ 0 := by
        unfold Order.getRemainingQuantity
        omega
      have htq : min rq buy.getRemainingQuantity ≠ 0 := by
        unfold Order.getRemainingQuantity
        omega
      have htle : min rq buy.getRemainingQuantity ≤ buy.getRemainingQuantity :=
        Nat.min_le_right _ _
      have hfq := Order.fill_filledQuantity_of_valid buy _ htq htle
      have hquant := Order.fill_quantity buy (min rq buy.getRemainingQuantity)
      have hne : buy.filledQuantity + min rq buy.getRemainingQuantity ≠ buy.quantity := by
        intro hcontra
        exact h3 ((Order.fill_status_filled_iff buy _ htq htle).2 hcontra)
      refine ⟨?_, ?_, ?_, ?_⟩
      · rw [List.pairwise_cons] at hord ⊢
        exact ⟨fun x hx => bidOrdered_of_fields (by simp) (by simp) (hord.1 x hx), hord.2⟩
      · intro o ho
        rcases List.mem_cons.1 ho with rfl | ho
        · unfold Order.getRemainingQuantity at hfq hquant hne ⊢
          rw [hfq, hquant]
          omega
        · exact hpos o (List.mem_cons_of_mem _ ho)
      · intro o ho
        rcases List.mem_cons.1 ho with rfl | ho
        · exact ⟨buy, List.mem_cons_self _ _, by simp⟩
        · exact ⟨o, List.mem_cons_of_mem _ ho, rfl⟩
      · intro _ hrq
        exfalso
        unfold Order.getRemainingQuantity at hne hrq
        omega

lemma matchSellLoop_full_inv (sellOrder : Order) (rq : ℕ) (bids : List Order)
    (h : sellOrder.status = OrderStatus.FILLED → sellOrder.filledQuantity = sellOrder.quantity) :
    (matchSellLoop sellOrder rq bids).order.status = OrderStatus.FILLED →
      (matchSellLoop sellOrder rq bids).order.filledQuantity =
        (matchSellLoop sellOrder rq bids).order.quantity := by
  induction bids generalizing sellOrder rq with
  | nil => simpa [matchSellLoop] using h
  | cons buy rest ih =>
    simp only [matchSellLoop]
    split_ifs with h1 h2 h3
    · simpa using h
    · simpa using h
    · exact ih _ _ (Order.fill_full_inv sellOrder _ h)
    · exact Order.fill_full_inv sellOrder _ h

/-! ### Decomposing `matchBuyOrder` / `matchSellOrder` / `addOrder` -/

@[simp] lemma matchBuyOrder_fst (order : Order) (book : OrderBook) :
    (matchBuyOrder order book).1 =
      (if order.type = OrderType.MARKET ∧
          (matchBuyLoop order order.quantity book.sellOrders).remainingQty > 0
        then (matchBuyLoop order order.quantity book.sellOrders).order.cancel
        else (matchBuyLoop order order.quantity book.sellOrders).order) := rfl

@[simp] lemma matchBuyOrder_trades (order : Order) (book : OrderBook) :
    (matchBuyOrder order book).2.2 =
      (matchBuyLoop order order.quantity book.sellOrders).trades := rfl

@[simp] lemma matchBuyOrder_buyOrders (order : Order) (book : OrderBook) :
    (matchBuyOrder order book).2.1.buyOrders = book.buyOrders := rfl

@[simp] lemma matchBuyOrder_sellOrders (order : Order) (book : OrderBook) :
    (matchBuyOrder order book).2.1.sellOrders =
      (matchBuyLoop order order.quantity book.sellOrders).oppositeSide := rfl

@[simp] lemma matchBuyOrder_orderMap (order : Order) (book : OrderBook) :
    (matchBuyOrder order book).2.1.orderMap =
      book.orderMap.filter
        (fun i => i ∉ (matchBuyLoop order order.quantity book.sellOrders).removedIds) := rfl

@[simp] lemma matchSellOrder_fst (order : Order) (book : OrderBook) :
    (matchSellOrder order book).1 =
      (if order.type = OrderType.MARKET ∧
          (matchSellLoop order order.quantity book.buyOrders).remainingQty > 0
        then (matchSellLoop order order.quantity book.buyOrders).order.cancel
        else (matchSellLoop order order.quantity book.buyOrders).order) := rfl

@[simp] lemma matchSellOrder_trades (order : Order) (book : OrderBook) :
    (matchSellOrder order book).2.2 =
      (matchSellLoop order order.quantity book.buyOrders).trades := rfl

@[simp] lemma matchSellOrder_sellOrders (order : Order) (book : OrderBook) :
    (matchSellOrder order book).2.1.sellOrders = book.sellOrders := rfl

@[simp] lemma matchSellOrder_buyOrders (order : Order) (book : OrderBook) :
    (matchSellOrder order book).2.1.buyOrders =
      (matchSellLoop order order.quantity book.buyOrders).oppositeSide := rfl

@[simp] lemma matchSellOrder_orderMap (order : Order) (book : OrderBook) :
    (matchSellOrder order book).2.1.orderMap =
      book.orderMap.filter
        (fun i => i ∉ (matchSellLoop order order.quantity book.buyOrders).removedIds) := rfl

lemma matchBuyOrder_fst_side (order : Order) (book : OrderBook) :
    (matchBuyOrder order book).1.side = order.side := by
  rw [matchBuyOrder_fst]
  split_ifs <;> simp

lemma matchBuyOrder_fst_type (order : Order) (book : OrderBook) :
    (matchBuyOrder order book).1.type = order.type := by
  rw [matchBuyOrder_fst]
  split_ifs <;> simp

lemma matchBuyOrder_fst_id (order : Order) (book : OrderBook) :
    (matchBuyOrder order book).1.id = order.id := by
  rw [matchBuyOrder_fst]
  split_ifs <;> simp

lemma matchSellOrder_fst_side (order : Order) (book : OrderBook) :
    (matchSellOrder order book).1.side = order.side := by
  rw [matchSellOrder_fst]
  split_ifs <;> simp

lemma matchSellOrder_fst_type (order : Order) (book : OrderBook) :
    (matchSellOrder order book).1.type = order.type := by
  rw [matchSellOrder_fst]
  split_ifs <;> simp

lemma matchSellOrder_fst_id (order : Order) (book : OrderBook) :
    (matchSellOrder order book).1.id = order.id := by
  rw [matchSellOrder_fst]
  split_ifs <;> simp

/-- The updated incoming order returned by `addOrder` is the one produced by
the matching phase (resting does not modify the order). -/
lemma addOrder_order (book : OrderBook) (order : Order) :
    (addOrder book order).2.1 =
      (if order.side = OrderSide.BUY then matchBuyOrder order book
       else matchSellOrder order book).1 := by
  unfold addOrder
  dsimp only
  split_ifs <;> rfl

/-- The trades returned by `addOrder` are the ones produced by the matching
phase. -/
lemma addOrder_trades (book : OrderBook) (order : Order) :
    (addOrder book order).2.2 =
      (if order.side = OrderSide.BUY then matchBuyOrder order book
       else matchSellOrder order book).2.2 := by
  unfold addOrder
  dsimp only
  split_ifs <;> rfl

lemma addOrder_book_buy (book : OrderBook) (order : Order)
    (hside : order.side = OrderSide.BUY) :
    (addOrder book order).1.sellOrders =
        (matchBuyLoop order order.quantity book.sellOrders).oppositeSide ∧
      ((addOrder book order).1.buyOrders =
        if (matchBuyOrder order book).1.getRemainingQuantity > 0 ∧
            (matchBuyOrder order book).1.status ≠ OrderStatus.CANCELED ∧
            (matchBuyOrder order book).1.type = OrderType.LIMIT
        then multisetInsert BuyOrderComparator (matchBuyOrder order book).1 book.buyOrders
        else book.buyOrders) := by
  have hs2 : (matchBuyOrder order book).1.side = OrderSide.BUY := by
    rw [matchBuyOrder_fst_side, hside]
  unfold addOrder
  rw [if_pos hside]
  dsimp only
  split_ifs with hcond
  · exact ⟨rfl, rfl⟩
  · exact ⟨rfl, rfl⟩

lemma addOrder_book_sell (book : OrderBook) (order : Order)
    (hside : order.side = OrderSide.SELL) :
    (addOrder book order).1.buyOrders =
        (matchSellLoop order order.quantity book.buyOrders).oppositeSide ∧
      ((addOrder book order).1.sellOrders =
        if (matchSellOrder order book).1.getRemainingQuantity > 0 ∧
            (matchSellOrder order book).1.status ≠ OrderStatus.CANCELED ∧
            (matchSellOrder order book).1.type = OrderType.LIMIT
        then multisetInsert SellOrderComparator (matchSellOrder order book).1 book.sellOrders
        else book.sellOrders) := by
  have hsne : ¬ order.side = OrderSide.BUY := by
    rw [hside]
    intro h
    cases h
  have hs2 : ¬ (matchSellOrder order book).1.side = OrderSide.BUY := by
    rw [matchSellOrder_fst_side, hside]
    intro h
    cases h
  unfold addOrder
  rw [if_neg hsne]
  dsimp only
  split_ifs with hcond
  · exact ⟨rfl, rfl⟩
  · exact ⟨rfl, rfl⟩

@[simp] lemma matchBuyLoop_order_price (buyOrder : Order) (rq : ℕ) (asks : List Order) :
    (matchBuyLoop buyOrder rq asks).order.price = buyOrder.price := by
  induction asks generalizing buyOrder rq with
  | nil => simp [matchBuyLoop]
  | cons sell rest ih =>
    simp only [matchBuyLoop]
    split_ifs <;> simp [ih]

@[simp] lemma matchSellLoop_order_price (sellOrder : Order) (rq : ℕ) (bids : List Order) :
    (matchSellLoop sellOrder rq bids).order.price = sellOrder.price := by
  induction bids generalizing sellOrder rq with
  | nil => simp [matchSellLoop]
  | cons buy rest ih =>
    simp only [matchSellLoop]
    split_ifs <;> simp [ih]

lemma matchBuyOrder_fst_price (order : Order) (book : OrderBook) :
    (matchBuyOrder order book).1.price = order.price := by
  rw [matchBuyOrder_fst]
  split_ifs <;> simp

lemma matchSellOrder_fst_price (order : Order) (book : OrderBook) :
    (matchSellOrder order book).1.price = order.price := by
  rw [matchSellOrder_fst]
  split_ifs <;> simp

/-! ### Well-formed books (claim C3) -/

/-- The invariants the book maintains: both sides kept in comparator order,
no resting order completely filled, and no resting bid at or above any
resting ask (the uncrossed-book property, in its strongest per-pair form). -/
def WFBook (book : OrderBook) : Prop :=
  book.buyOrders.Pairwise bidOrdered ∧
  book.sellOrders.Pairwise askOrdered ∧
  (∀ o ∈ book.buyOrders, o.filledQuantity < o.quantity) ∧
  (∀ o ∈ book.sellOrders, o.filledQuantity < o.quantity) ∧
  (∀ b ∈ book.buyOrders, ∀ a ∈ book.sellOrders, b.price < a.price)

lemma WFBook_empty : WFBook emptyBook := by
  refine ⟨?_, ?_, ?_, ?_, ?_⟩ <;> simp [emptyBook]

/-- `addOrder` preserves the book invariants for incoming orders that have
not been filled yet (as every order handed to the engine by construction). -/
lemma addOrder_preserves_WF (book : OrderBook) (order : Order)
    (hwf : WFBook book) (h0 : order.filledQuantity = 0) :
    WFBook (addOrder book order).1 := by
  obtain ⟨hbord, hsord, hbpos, hspos, hunc⟩ := hwf
  rcases hside : order.side with _ | _
  · -- incoming BUY order
    have hspec := matchBuyLoop_side_spec order order.quantity book.sellOrders hsord hspos
    have hcons := matchBuyLoop_conservation order order.quantity book.sellOrders
      (by omega) (by unfold Order.getRemainingQuantity; omega)
    obtain ⟨hsells, hbuys⟩ := addOrder_book_buy book order hside
    refine ⟨?_, ?_, ?_, ?_, ?_⟩
    · rw [hbuys]
      split_ifs with hcond
      · exact multisetInsert_pairwise bidOrdered_trans
          (fun b hb => buyCmp_bidOrdered hb)
          (fun b hb => not_buyCmp_bidOrdered hb) hbord
      · exact hbord
    · rw [hsells]
      exact hspec.1
    · rw [hbuys]
      split_ifs with hcond
      · intro o ho
        rcases (mem_multisetInsert _ _ o _).1 ho with rfl | ho
        · have := hcond.1
          unfold Order.getRemainingQuantity at this
          omega
        · exact hbpos o ho
      · exact hbpos
    · rw [hsells]
      exact hspec.2.1
    · rw [hbuys, hsells]
      have hrest : ∀ b ∈ book.buyOrders,
          ∀ a ∈ (matchBuyLoop order order.quantity book.sellOrders).oppositeSide,
            b.price < a.price := by
        intro b hb a ha
        obtain ⟨a0, ha0, hpa⟩ := hspec.2.2.1 a ha
        rw [hpa]
        exact hunc b hb a0 ha0
      split_ifs with hcond
      · intro b hb a ha
        rcases (mem_multisetInsert _ _ b _).1 hb with rfl | hb
        · have htype : order.type = OrderType.LIMIT := by
            rw [← matchBuyOrder_fst_type order book]
            exact hcond.2.2
          have hoeq : (matchBuyOrder order book).1 =
              (matchBuyLoop order order.quantity book.sellOrders).order := by
            rw [matchBuyOrder_fst, if_neg]
            rintro ⟨hm, _⟩
            rw [htype] at hm
            cases hm
          have hrq : (matchBuyLoop order order.quantity book.sellOrders).remainingQty > 0 := by
            rw [hcons.2.2, ← hoeq]
            exact hcond.1
          have hstop := hspec.2.2.2 htype hrq
          rw [hoeq, matchBuyLoop_order_price]
          exact hstop a ha
        · exact hrest b hb a ha
      · exact hrest
  · -- incoming SELL order
    have hspec := matchSellLoop_side_spec order order.quantity book.buyOrders hbord hbpos
    have hcons := matchSellLoop_conservation order order.quantity book.buyOrders
      (by omega) (by unfold Order.getRemainingQuantity; omega)
    obtain ⟨hbuys, hsells⟩ := addOrder_book_sell book order hside
    refine ⟨?_, ?_, ?_, ?_, ?_⟩
    · rw [hbuys]
      exact hspec.1
    · rw [hsells]
      split_ifs with hcond
      · exact multisetInsert_pairwise askOrdered_trans
          (fun b hb => sellCmp_askOrdered hb)
          (fun b hb => not_sellCmp_askOrdered hb) hsord
      · exact hsord
    · rw [hbuys]
      exact hspec.2.1
    · rw [hsells]
      split_ifs with hcond
      · intro o ho
        rcases (mem_multisetInsert _ _ o _).1 ho with rfl | ho
        · have := hcond.1
          unfold Order.getRemainingQuantity at this
          omega
        · exact hspos o ho
      · exact hspos
    · rw [hbuys, hsells]
      have hrest : ∀ b ∈ (matchSellLoop order order.quantity book.buyOrders).oppositeSide,
          ∀ a ∈ book.sellOrders, b.price < a.price := by
        intro b hb a ha
        obtain ⟨b0, hb0, hpb⟩ := hspec.2.2.1 b hb
        rw [hpb]
        exact hunc b0 hb0 a ha
      split_ifs with hcond
      · intro b hb a ha
        rcases (mem_multisetInsert _ _ a _).1 ha with rfl | ha
        · have htype : order.type = OrderType.LIMIT := by
            rw [← matchSellOrder_fst_type order book]
            exact hcond.2.2
          have hoeq : (matchSellOrder order book).1 =
              (matchSellLoop order order.quantity book.buyOrders).order := by
            rw [matchSellOrder_fst, if_neg]
            rintro ⟨hm, _⟩
            rw [htype] at hm
            cases hm
          have hrq : (matchSellLoop order order.quantity book.buyOrders).remainingQty > 0 := by
            rw [hcons.2.2, ← hoeq]
            exact hcond.1
          have hstop := hspec.2.2.2 htype hrq
          rw [hoeq, matchSellLoop_order_price]
          exact hstop b hb
        · exact hrest b hb a ha
      · exact hrest

/-- The book built from the empty book by any sequence of fresh orders is
well-formed. -/
lemma addOrderSeq_WF (book : OrderBook) (orders : List Order)
    (hwf : WFBook book) (h0 : ∀ o ∈ orders, o.filledQuantity = 0) :
    WFBook (addOrderSeq book orders) := by
  induction orders generalizing book with
  | nil => exact hwf
  | cons o rest ih =>
    have h1 := addOrder_preserves_WF book o hwf (h0 o (List.mem_cons_self _ _))
    exact ih _ h1 (fun x hx => h0 x (List.mem_cons_of_mem _ hx))

/-! ### Zero-quantity orders -/

lemma matchBuyLoop_zero (buyOrder : Order) (asks : List Order) :
    matchBuyLoop buyOrder 0 asks = ⟨buyOrder, 0, asks, [], []⟩ := by
  cases asks <;> simp [matchBuyLoop]

lemma matchSellLoop_zero (sellOrder : Order) (bids : List Order) :
    matchSellLoop sellOrder 0 bids = ⟨sellOrder, 0, bids, [], []⟩ := by
  cases bids <;> simp [matchSellLoop]

lemma filter_not_mem_nil (l : List ℕ) :
    l.filter (fun i => i ∉ ([] : List ℕ)) = l := by
  apply List.filter_eq_self.mpr
  intro a _
  simp

lemma matchBuyOrder_zero (order : Order) (book : OrderBook)
    (hq : order.quantity = 0) :
    matchBuyOrder order book = (order, book, []) := by
  unfold matchBuyOrder
  rw [hq, matchBuyLoop_zero]
  dsimp only
  rw [if_neg (by simp)]
  rcases book with ⟨bo, so, om⟩
  simp [filter_not_mem_nil]

lemma matchSellOrder_zero (order : Order) (book : OrderBook)
    (hq : order.quantity = 0) :
    matchSellOrder order book = (order, book, []) := by
  unfold matchSellOrder
  rw [hq, matchSellLoop_zero]
  dsimp only
  rw [if_neg (by simp)]
  rcases book with ⟨bo, so, om⟩
  simp [filter_not_mem_nil]

/-! ## Claim theorems -/

/-- C1: every `Trade` returned by `OrderBook::addOrder` carries the price of
the resting (book-side) order it consumed, not the incoming aggressor's
price: a buy aggressor trades at the matched sell order's price (and carries
its id as the sell side of the trade), and a sell aggressor trades at the
matched buy order's price. -/
theorem c1_execution_price_rule (book : OrderBook) (order : Order) :
    ∀ t ∈ (addOrder book order).2.2,
      (order.side = OrderSide.BUY →
        ∃ s ∈ book.sellOrders,
          t.sellOrderId = s.id ∧ t.price = s.price ∧ t.buyOrderId = order.id) ∧
      (order.side = OrderSide.SELL →
        ∃ b ∈ book.buyOrders,
          t.buyOrderId = b.id ∧ t.price = b.price ∧ t.sellOrderId = order.id) := by
  intro t ht
  rw [addOrder_trades] at ht
  constructor
  · intro hside
    rw [if_pos hside, matchBuyOrder_trades] at ht
    obtain ⟨hb, a, ha, hid, hp⟩ :=
      matchBuyLoop_trades_src order order.quantity book.sellOrders t ht
    exact ⟨a, ha, hid, hp, hb⟩
  · intro hside
    have hnb : ¬ order.side = OrderSide.BUY := by
      rw [hside]
      intro h
      cases h
    rw [if_neg hnb, matchSellOrder_trades] at ht
    obtain ⟨hs, b, hb, hid, hp⟩ :=
      matchSellLoop_trades_src order order.quantity book.buyOrders t ht
    exact ⟨b, hb, hid, hp, hs⟩

/-- Witness for C1 at a concrete input: a limit buy (id 2, price 100, qty 5)
against a book holding one resting sell (id 1, price 100, qty 5). -/
theorem c1_execution_price_rule_witness :
    ((⟨2, OrderSide.BUY, OrderType.LIMIT, 100, 5, 0, 1, OrderStatus.NEW⟩ : Order).side =
        OrderSide.BUY →
      ∃ s ∈ (⟨[], [⟨1, OrderSide.SELL, OrderType.LIMIT, 100, 5, 0, 0, OrderStatus.NEW⟩],
          [1]⟩ : OrderBook).sellOrders,
        (⟨2, 1, 100, 5⟩ : Trade).sellOrderId = s.id ∧
          (⟨2, 1, 100, 5⟩ : Trade).price = s.price ∧
          (⟨2, 1, 100, 5⟩ : Trade).buyOrderId =
            (⟨2, OrderSide.BUY, OrderType.LIMIT, 100, 5, 0, 1, OrderStatus.NEW⟩ : Order).id) ∧
    ((⟨2, OrderSide.BUY, OrderType.LIMIT, 100, 5, 0, 1, OrderStatus.NEW⟩ : Order).side =
        OrderSide.SELL →
      ∃ b ∈ (⟨[], [⟨1, OrderSide.SELL, OrderType.LIMIT, 100, 5, 0, 0, OrderStatus.NEW⟩],
          [1]⟩ : OrderBook).buyOrders,
        (⟨2, 1, 100, 5⟩ : Trade).buyOrderId = b.id ∧
          (⟨2, 1, 100, 5⟩ : Trade).price = b.price ∧
          (⟨2, 1, 100, 5⟩ : Trade).sellOrderId =
            (⟨2, OrderSide.BUY, OrderType.LIMIT, 100, 5, 0, 1, OrderStatus.NEW⟩ : Order).id) :=
  c1_execution_price_rule
    ⟨[], [⟨1, OrderSide.SELL, OrderType.LIMIT, 100, 5, 0, 0, OrderStatus.NEW⟩], [1]⟩
    ⟨2, OrderSide.BUY, OrderType.LIMIT, 100, 5, 0, 1, OrderStatus.NEW⟩
    ⟨2, 1, 100, 5⟩ (by decide)

/-- C2: conservation of quantity.  For every order admitted via `addOrder`
with `filled_quantity = 0`, the sum of the quantities of the trades returned
by the call equals the order's `filled_quantity` afterwards (which is exactly
the amount the call added to it); no trade quantity is double-counted. -/
theorem c2_conservation_of_quantity (book : OrderBook) (order : Order)
    (h0 : order.filledQuantity = 0) :
    (((addOrder book order).2.2).map Trade.quantity).sum =
      (addOrder book order).2.1.filledQuantity := by
  rw [addOrder_trades, addOrder_order]
  by_cases hside : order.side = OrderSide.BUY
  · rw [if_pos hside, matchBuyOrder_trades, matchBuyOrder_fst]
    have hcons := matchBuyLoop_conservation order order.quantity book.sellOrders
      (by omega) (by unfold Order.getRemainingQuantity; omega)
    split_ifs with hc
    · rw [Order.cancel_filledQuantity, hcons.2.1, h0]
      omega
    · rw [hcons.2.1, h0]
      omega
  · rw [if_neg hside, matchSellOrder_trades, matchSellOrder_fst]
    have hcons := matchSellLoop_conservation order order.quantity book.buyOrders
      (by omega) (by unfold Order.getRemainingQuantity; omega)
    split_ifs with hc
    · rw [Order.cancel_filledQuantity, hcons.2.1, h0]
      omega
    · rw [hcons.2.1, h0]
      omega

/-- Witness for C2 at a concrete input: a limit buy (qty 8) partially fills
against a resting sell (qty 5): one trade of quantity 5, and the aggressor's
filled quantity afterwards is 5. -/
theorem c2_conservation_of_quantity_witness :
    (((addOrder
        ⟨[], [⟨1, OrderSide.SELL, OrderType.LIMIT, 100, 5, 0, 0, OrderStatus.NEW⟩], [1]⟩
        ⟨2, OrderSide.BUY, OrderType.LIMIT, 101, 8, 0, 1, OrderStatus.NEW⟩).2.2).map
          Trade.quantity).sum =
      (addOrder
        ⟨[], [⟨1, OrderSide.SELL, OrderType.LIMIT, 100, 5, 0, 0, OrderStatus.NEW⟩], [1]⟩
        ⟨2, OrderSide.BUY, OrderType.LIMIT, 101, 8, 0, 1, OrderStatus.NEW⟩).2.1.filledQuantity :=
  c2_conservation_of_quantity
    ⟨[], [⟨1, OrderSide.SELL, OrderType.LIMIT, 100, 5, 0, 0, OrderStatus.NEW⟩], [1]⟩
    ⟨2, OrderSide.BUY, OrderType.LIMIT, 101, 8, 0, 1, OrderStatus.NEW⟩ rfl

/-- C3: no crossed rest book.  After every sequence of `addOrder` calls
starting from the empty book (each incoming order fresh, i.e. not yet
filled), whenever both sides of the book are non-empty the best resting bid
price is strictly below the best resting ask price. -/
theorem c3_no_crossed_rest_book (orders : List Order)
    (h0 : ∀ o ∈ orders, o.filledQuantity = 0)
    (hb : (addOrderSeq emptyBook orders).buyOrders ≠ [])
    (hs : (addOrderSeq emptyBook orders).sellOrders ≠ []) :
    getBestBidPrice (addOrderSeq emptyBook orders) <
      getBestAskPrice (addOrderSeq emptyBook orders) := by
  obtain ⟨_, _, _, _, hunc⟩ := addOrderSeq_WF emptyBook orders WFBook_empty h0
  rcases hbb : (addOrderSeq emptyBook orders).buyOrders with _ | ⟨b, bs⟩
  · exact absurd hbb hb
  rcases hss : (addOrderSeq emptyBook orders).sellOrders with _ | ⟨a, as⟩
  · exact absurd hss hs
  have h1 : getBestBidPrice (addOrderSeq emptyBook orders) = b.price := by
    unfold getBestBidPrice
    rw [hbb]
  have h2 : getBestAskPrice (addOrderSeq emptyBook orders) = a.price := by
    unfold getBestAskPrice
    rw [hss]
  rw [h1, h2]
  exact hunc b (by rw [hbb]; exact List.mem_cons_self _ _)
    a (by rw [hss]; exact List.mem_cons_self _ _)

/-- Witness for C3 at a concrete input: a resting bid at 100 and a resting
ask at 105, built from the empty book. -/
theorem c3_no_crossed_rest_book_witness :
    getBestBidPrice (addOrderSeq emptyBook
        [⟨1, OrderSide.BUY, OrderType.LIMIT, 100, 10, 0, 0, OrderStatus.NEW⟩,
         ⟨2, OrderSide.SELL, OrderType.LIMIT, 105, 10, 0, 1, OrderStatus.NEW⟩]) <
      getBestAskPrice (addOrderSeq emptyBook
        [⟨1, OrderSide.BUY, OrderType.LIMIT, 100, 10, 0, 0, OrderStatus.NEW⟩,
         ⟨2, OrderSide.SELL, OrderType.LIMIT, 105, 10, 0, 1, OrderStatus.NEW⟩]) :=
  c3_no_crossed_rest_book
    [⟨1, OrderSide.BUY, OrderType.LIMIT, 100, 10, 0, 0, OrderStatus.NEW⟩,
     ⟨2, OrderSide.SELL, OrderType.LIMIT, 105, 10, 0, 1, OrderStatus.NEW⟩]
    (by decide) (by decide) (by decide)

/-- C6 (counterexample): `OrderBook::addOrder` contains no zero-quantity
rejection: a zero-quantity limit buy against the empty book comes back with
status still `NEW` — it is never set to `REJECTED`. -/
theorem c6_counterexample :
    (addOrder emptyBook
        ⟨1, OrderSide.BUY, OrderType.LIMIT, 100, 0, 0, 0, OrderStatus.NEW⟩).2.1.status =
      OrderStatus.NEW ∧
    OrderStatus.NEW ≠ OrderStatus.REJECTED := by
  decide

/-- C6 (amended): for every order with `quantity = 0` (entering unfilled),
`addOrder` returns an empty trade vector, does not insert the order into
either side of the book or into the id index, leaves the book state
completely unchanged, and leaves the order itself unchanged — in particular
its status stays `New` and is *not* set to `Rejected`.  (`addOrder` is a
total function in this model, so it cannot throw.) -/
theorem c6_amended_zero_quantity_order (book : OrderBook) (order : Order)
    (hq : order.quantity = 0) (h0 : order.filledQuantity = 0) :
    addOrder book order = (book, order, []) := by
  by_cases hside : order.side = OrderSide.BUY
  · unfold addOrder
    rw [if_pos hside, matchBuyOrder_zero order book hq]
    dsimp only
    rw [if_neg (by
      rintro ⟨h, -, -⟩
      unfold Order.getRemainingQuantity at h
      omega)]
  · unfold addOrder
    rw [if_neg hside, matchSellOrder_zero order book hq]
    dsimp only
    rw [if_neg (by
      rintro ⟨h, -, -⟩
      unfold Order.getRemainingQuantity at h
      omega)]

/-- Witness for the amended C6 at a concrete input. -/
theorem c6_amended_zero_quantity_order_witness :
    addOrder
        ⟨[], [⟨7, OrderSide.SELL, OrderType.LIMIT, 90, 5, 0, 0, OrderStatus.NEW⟩], [7]⟩
        ⟨1, OrderSide.BUY, OrderType.LIMIT, 100, 0, 0, 1, OrderStatus.NEW⟩ =
      (⟨[], [⟨7, OrderSide.SELL, OrderType.LIMIT, 90, 5, 0, 0, OrderStatus.NEW⟩], [7]⟩,
       ⟨1, OrderSide.BUY, OrderType.LIMIT, 100, 0, 0, 1, OrderStatus.NEW⟩, []) :=
  c6_amended_zero_quantity_order
    ⟨[], [⟨7, OrderSide.SELL, OrderType.LIMIT, 90, 5, 0, 0, OrderStatus.NEW⟩], [7]⟩
    ⟨1, OrderSide.BUY, OrderType.LIMIT, 100, 0, 0, 1, OrderStatus.NEW⟩ rfl rfl

/-- C7: invalid fill atomicity.  `Order::fill(q)` with `q = 0` or with `q`
greater than the order's remaining quantity returns failure (`false`) and
leaves the order completely unchanged — an over-large fill is rejected
wholly, never partially applied.  (`Order::Quantity` is the unsigned
`std::uint64_t`, modelled as `ℕ`, so a negative `q` is not representable;
the C++ guard `fillQuantity <= 0` accordingly reduces to `q = 0`.) -/
theorem c7_invalid_fill_atomicity (o : Order) (q : ℕ)
    (h : q = 0 ∨ q > o.getRemainingQuantity) :
    o.fill q = (o, false) := by
  rw [Order.fill, if_pos h]

/-- Witness for C7 at a concrete input: an over-large fill (15 against a
remaining quantity of 10) fails and changes nothing. -/
theorem c7_invalid_fill_atomicity_witness :
    (⟨1, OrderSide.BUY, OrderType.LIMIT, 100, 10, 0, 0, OrderStatus.NEW⟩ : Order).fill 15 =
      (⟨1, OrderSide.BUY, OrderType.LIMIT, 100, 10, 0, 0, OrderStatus.NEW⟩, false) :=
  c7_invalid_fill_atomicity
    ⟨1, OrderSide.BUY, OrderType.LIMIT, 100, 10, 0, 0, OrderStatus.NEW⟩ 15
    (Or.inr (by decide))

/-- C8 (counterexample): a `Canceled` order does accept further fills.
`Order::fill` checks only the quantity bounds, never the status: cancelling
a fresh order (qty 10, filled 0) and then filling 5 succeeds in mutating it —
`filled_quantity` becomes 5 and the status is overwritten to
`PARTIALLY_FILLED`. -/
theorem c8_counterexample :
    (⟨1, OrderSide.BUY, OrderType.LIMIT, 100, 10, 0, 0, OrderStatus.NEW⟩ : Order).cancel.status =
        OrderStatus.CANCELED ∧
    ((⟨1, OrderSide.BUY, OrderType.LIMIT, 100, 10, 0, 0,
        OrderStatus.NEW⟩ : Order).cancel.fill 5).1.filledQuantity = 5 ∧
    ((⟨1, OrderSide.BUY, OrderType.LIMIT, 100, 10, 0, 0,
        OrderStatus.NEW⟩ : Order).cancel.fill 5).1.status = OrderStatus.PARTIALLY_FILLED := by
  decide

/-- C8 (amended): orders with status `Filled` admit no further fills: for
every order whose status is `Filled` — equivalently, by the data-model
invariant, whose `filled_quantity` equals its `quantity` — every subsequent
`Order::fill` call with any quantity fails and leaves the order unchanged.
`Canceled` orders are *not* protected: a canceled order with positive
remaining quantity still accepts fills (see the counterexample). -/
theorem c8_amended_filled_admits_no_fills (o : Order) (q : ℕ)
    (hst : o.status = OrderStatus.FILLED) (hfull : o.filledQuantity = o.quantity) :
    o.fill q = (o, false) := by
  rw [Order.fill, if_pos]
  unfold Order.getRemainingQuantity
  omega

/-- Witness for the amended C8 at a concrete input: a completely filled
order rejects a further fill of 3. -/
theorem c8_amended_filled_admits_no_fills_witness :
    (⟨1, OrderSide.BUY, OrderType.LIMIT, 100, 10, 10, 0, OrderStatus.FILLED⟩ : Order).fill 3 =
      (⟨1, OrderSide.BUY, OrderType.LIMIT, 100, 10, 10, 0, OrderStatus.FILLED⟩, false) :=
  c8_amended_filled_admits_no_fills
    ⟨1, OrderSide.BUY, OrderType.LIMIT, 100, 10, 10, 0, OrderStatus.FILLED⟩ 3 rfl rfl

/-- C4 (counterexample): the comparators carry no id tiebreaker.  Two limit
sells with the same price (100) and the same timestamp, submitted with
id 5 first and id 2 second, rest in arrival order; a crossing buy for one
order's size consumes id 5, not the smaller id 2 — which stays resting. -/
theorem c4_counterexample :
    (⟨5, OrderSide.SELL, OrderType.LIMIT, 100, 5, 0, 0, OrderStatus.NEW⟩ : Order).price =
        (⟨2, OrderSide.SELL, OrderType.LIMIT, 100, 5, 0, 0, OrderStatus.NEW⟩ : Order).price ∧
    (⟨5, OrderSide.SELL, OrderType.LIMIT, 100, 5, 0, 0, OrderStatus.NEW⟩ : Order).timestamp =
        (⟨2, OrderSide.SELL, OrderType.LIMIT, 100, 5, 0, 0, OrderStatus.NEW⟩ : Order).timestamp ∧
    ((addOrder (addOrder (addOrder emptyBook
          ⟨5, OrderSide.SELL, OrderType.LIMIT, 100, 5, 0, 0, OrderStatus.NEW⟩).1
          ⟨2, OrderSide.SELL, OrderType.LIMIT, 100, 5, 0, 0, OrderStatus.NEW⟩).1
          ⟨3, OrderSide.BUY, OrderType.LIMIT, 100, 5, 0, 1, OrderStatus.NEW⟩).2.2).map
        Trade.sellOrderId = [5] ∧
    ((addOrder (addOrder (addOrder emptyBook
          ⟨5, OrderSide.SELL, OrderType.LIMIT, 100, 5, 0, 0, OrderStatus.NEW⟩).1
          ⟨2, OrderSide.SELL, OrderType.LIMIT, 100, 5, 0, 0, OrderStatus.NEW⟩).1
          ⟨3, OrderSide.BUY, OrderType.LIMIT, 100, 5, 0, 1, OrderStatus.NEW⟩).1.sellOrders).map
        Order.id = [2] ∧
    (5 : ℕ) ≠ 2 := by
  refine ⟨?_, ?_, ?_, ?_, ?_⟩ <;> decide

lemma consume_earlier_ts_asks (buyOrder : Order) (rq : ℕ) (asks : List Order)
    (hord : asks.Pairwise askOrdered) (hnd : (asks.map Order.id).Nodup)
    (r1 r2 : Order) (h1 : r1 ∈ asks) (h2 : r2 ∈ asks)
    (hp : r1.price = r2.price) (ht : r1.timestamp < r2.timestamp)
    (hmem : r2.id ∈ (matchBuyLoop buyOrder rq asks).trades.map Trade.sellOrderId) :
    ∃ (i j : ℕ)
      (hi : i < ((matchBuyLoop buyOrder rq asks).trades.map Trade.sellOrderId).length)
      (hj : j < ((matchBuyLoop buyOrder rq asks).trades.map Trade.sellOrderId).length),
      i < j ∧
      ((matchBuyLoop buyOrder rq asks).trades.map Trade.sellOrderId).get ⟨i, hi⟩ = r1.id ∧
      ((matchBuyLoop buyOrder rq asks).trades.map Trade.sellOrderId).get ⟨j, hj⟩ = r2.id := by
  have hne : r1 ≠ r2 := by
    intro h
    rw [h] at ht
    exact lt_irrefl _ ht
  have hnR : ¬ askOrdered r2 r1 := by
    rintro (hlt | ⟨hpe, hte⟩)
    · linarith
    · omega
  obtain ⟨i0, j0, hi0, hj0, hij, hieq, hjeq⟩ := pairwise_earlier_index hord h1 h2 hne hnR
  have hpre : (matchBuyLoop buyOrder rq asks).trades.map Trade.sellOrderId =
      (asks.take
        ((matchBuyLoop buyOrder rq asks).trades.map Trade.sellOrderId).length).map
        Order.id := by
    rw [List.length_map]
    exact matchBuyLoop_trade_ids buyOrder rq asks
  have hmem2 : (asks.get ⟨j0, hj0⟩).id ∈
      (matchBuyLoop buyOrder rq asks).trades.map Trade.sellOrderId := by
    rw [hjeq]
    exact hmem
  obtain ⟨hi2, hj2, e1, e2⟩ := prefix_ids_consumed _ asks hpre hnd i0 j0 hij hj0 hmem2
  refine ⟨i0, j0, hi2, hj2, hij, ?_, ?_⟩
  · rw [e1, hieq]
  · rw [e2, hjeq]

lemma consume_insertion_order_asks (buyOrder : Order) (rq : ℕ) (l : List Order)
    (o e : Order) (hord : l.Pairwise askOrdered)
    (hnd : ((multisetInsert SellOrderComparator o l).map Order.id).Nodup)
    (he : e ∈ l) (hp : e.price = o.price) (ht : e.timestamp = o.timestamp)
    (hmem : o.id ∈ (matchBuyLoop buyOrder rq
      (multisetInsert SellOrderComparator o l)).trades.map Trade.sellOrderId) :
    ∃ (i j : ℕ)
      (hi : i < ((matchBuyLoop buyOrder rq
        (multisetInsert SellOrderComparator o l)).trades.map Trade.sellOrderId).length)
      (hj : j < ((matchBuyLoop buyOrder rq
        (multisetInsert SellOrderComparator o l)).trades.map Trade.sellOrderId).length),
      i < j ∧
      ((matchBuyLoop buyOrder rq
        (multisetInsert SellOrderComparator o l)).trades.map Trade.sellOrderId).get
          ⟨i, hi⟩ = e.id ∧
      ((matchBuyLoop buyOrder rq
        (multisetInsert SellOrderComparator o l)).trades.map Trade.sellOrderId).get
          ⟨j, hj⟩ = o.id := by
  obtain ⟨i0, j0, hi0, hj0, hij, hieq, hjeq⟩ :=
    multisetInsert_sell_after_equiv hord he hp ht
  have hpre : (matchBuyLoop buyOrder rq
      (multisetInsert SellOrderComparator o l)).trades.map Trade.sellOrderId =
      ((multisetInsert SellOrderComparator o l).take
        ((matchBuyLoop buyOrder rq
          (multisetInsert SellOrderComparator o l)).trades.map Trade.sellOrderId).length).map
        Order.id := by
    rw [List.length_map]
    exact matchBuyLoop_trade_ids buyOrder rq _
  have hmem2 : ((multisetInsert SellOrderComparator o l).get ⟨j0, hj0⟩).id ∈
      (matchBuyLoop buyOrder rq
        (multisetInsert SellOrderComparator o l)).trades.map Trade.sellOrderId := by
    rw [hjeq]
    exact hmem
  obtain ⟨hi2, hj2, e1, e2⟩ :=
    prefix_ids_consumed _ _ hpre hnd i0 j0 hij hj0 hmem2
  refine ⟨i0, j0, hi2, hj2, hij, ?_, ?_⟩
  · rw [e1, hieq]
  · rw [e2, hjeq]

lemma consume_earlier_ts_bids (sellOrder : Order) (rq : ℕ) (bids : List Order)
    (hord : bids.Pairwise bidOrdered) (hnd : (bids.map Order.id).Nodup)
    (r1 r2 : Order) (h1 : r1 ∈ bids) (h2 : r2 ∈ bids)
    (hp : r1.price = r2.price) (ht : r1.timestamp < r2.timestamp)
    (hmem : r2.id ∈ (matchSellLoop sellOrder rq bids).trades.map Trade.buyOrderId) :
    ∃ (i j : ℕ)
      (hi : i < ((matchSellLoop sellOrder rq bids).trades.map Trade.buyOrderId).length)
      (hj : j < ((matchSellLoop sellOrder rq bids).trades.map Trade.buyOrderId).length),
      i < j ∧
      ((matchSellLoop sellOrder rq bids).trades.map Trade.buyOrderId).get ⟨i, hi⟩ = r1.id ∧
      ((matchSellLoop sellOrder rq bids).trades.map Trade.buyOrderId).get ⟨j, hj⟩ = r2.id := by
  have hne : r1 ≠ r2 := by
    intro h
    rw [h] at ht
    exact lt_irrefl _ ht
  have hnR : ¬ bidOrdered r2 r1 := by
    rintro (hlt | ⟨hpe, hte⟩)
    · linarith
    · omega
  obtain ⟨i0, j0, hi0, hj0, hij, hieq, hjeq⟩ := pairwise_earlier_index hord h1 h2 hne hnR
  have hpre : (matchSellLoop sellOrder rq bids).trades.map Trade.buyOrderId =
      (bids.take
        ((matchSellLoop sellOrder rq bids).trades.map Trade.buyOrderId).length).map
        Order.id := by
    rw [List.length_map]
    exact matchSellLoop_trade_ids sellOrder rq bids
  have hmem2 : (bids.get ⟨j0, hj0⟩).id ∈
      (matchSellLoop sellOrder rq bids).trades.map Trade.buyOrderId := by
    rw [hjeq]
    exact hmem
  obtain ⟨hi2, hj2, e1, e2⟩ := prefix_ids_consumed _ bids hpre hnd i0 j0 hij hj0 hmem2
  refine ⟨i0, j0, hi2, hj2, hij, ?_, ?_⟩
  · rw [e1, hieq]
  · rw [e2, hjeq]

lemma consume_insertion_order_bids (sellOrder : Order) (rq : ℕ) (l : List Order)
    (o e : Order) (hord : l.Pairwise bidOrdered)
    (hnd : ((multisetInsert BuyOrderComparator o l).map Order.id).Nodup)
    (he : e ∈ l) (hp : e.price = o.price) (ht : e.timestamp = o.timestamp)
    (hmem : o.id ∈ (matchSellLoop sellOrder rq
      (multisetInsert BuyOrderComparator o l)).trades.map Trade.buyOrderId) :
    ∃ (i j : ℕ)
      (hi : i < ((matchSellLoop sellOrder rq
        (multisetInsert BuyOrderComparator o l)).trades.map Trade.buyOrderId).length)
      (hj : j < ((matchSellLoop sellOrder rq
        (multisetInsert BuyOrderComparator o l)).trades.map Trade.buyOrderId).length),
      i < j ∧
      ((matchSellLoop sellOrder rq
        (multisetInsert BuyOrderComparator o l)).trades.map Trade.buyOrderId).get
          ⟨i, hi⟩ = e.id ∧
      ((matchSellLoop sellOrder rq
        (multisetInsert BuyOrderComparator o l)).trades.map Trade.buyOrderId).get
          ⟨j, hj⟩ = o.id := by
  obtain ⟨i0, j0, hi0, hj0, hij, hieq, hjeq⟩ :=
    multisetInsert_buy_after_equiv hord he hp ht
  have hpre : (matchSellLoop sellOrder rq
      (multisetInsert BuyOrderComparator o l)).trades.map Trade.buyOrderId =
      ((multisetInsert BuyOrderComparator o l).take
        ((matchSellLoop sellOrder rq
          (multisetInsert BuyOrderComparator o l)).trades.map Trade.buyOrderId).length).map
        Order.id := by
    rw [List.length_map]
    exact matchSellLoop_trade_ids sellOrder rq _
  have hmem2 : ((multisetInsert BuyOrderComparator o l).get ⟨j0, hj0⟩).id ∈
      (matchSellLoop sellOrder rq
        (multisetInsert BuyOrderComparator o l)).trades.map Trade.buyOrderId := by
    rw [hjeq]
    exact hmem
  obtain ⟨hi2, hj2, e1, e2⟩ :=
    prefix_ids_consumed _ _ hpre hnd i0 j0 hij hj0 hmem2
  refine ⟨i0, j0, hi2, hj2, hij, ?_, ?_⟩
  · rw [e1, hieq]
  · rw [e2, hjeq]

/-- C4 (amended): price-time priority with *arrival-order* tiebreaker, not
an id tiebreaker.  On either side of a well-ordered book with distinct ids:
(a) of two resting orders at the same price, the one with the strictly
earlier timestamp is consumed first by a crossing order — whenever the later
one's id appears among the trades of the matching walk, the earlier one's id
appears at a strictly earlier position; and (b) when the two timestamps are
equal, the order that was inserted into the side earlier is consumed first,
regardless of their ids (`std::multiset::insert` places a new order after
all equivalent resting ones).  The smaller-id rule of the claim does not
hold (see the counterexample). -/
theorem c4_amended_price_time_priority :
    (∀ (buyOrder : Order) (rq : ℕ) (asks : List Order),
      asks.Pairwise askOrdered → (asks.map Order.id).Nodup →
      ∀ r1 r2, r1 ∈ asks → r2 ∈ asks → r1.price = r2.price →
        r1.timestamp < r2.timestamp →
        r2.id ∈ (matchBuyLoop buyOrder rq asks).trades.map Trade.sellOrderId →
        ∃ (i j : ℕ)
          (hi : i < ((matchBuyLoop buyOrder rq asks).trades.map Trade.sellOrderId).length)
          (hj : j < ((matchBuyLoop buyOrder rq asks).trades.map Trade.sellOrderId).length),
          i < j ∧
          ((matchBuyLoop buyOrder rq asks).trades.map Trade.sellOrderId).get ⟨i, hi⟩ = r1.id ∧
          ((matchBuyLoop buyOrder rq asks).trades.map Trade.sellOrderId).get ⟨j, hj⟩ = r2.id) ∧
    (∀ (buyOrder : Order) (rq : ℕ) (l : List Order) (o e : Order),
      l.Pairwise askOrdered →
      ((multisetInsert SellOrderComparator o l).map Order.id).Nodup →
      e ∈ l → e.price = o.price → e.timestamp = o.timestamp →
      o.id ∈ (matchBuyLoop buyOrder rq
        (multisetInsert SellOrderComparator o l)).trades.map Trade.sellOrderId →
      ∃ (i j : ℕ)
        (hi : i < ((matchBuyLoop buyOrder rq
          (multisetInsert SellOrderComparator o l)).trades.map Trade.sellOrderId).length)
        (hj : j < ((matchBuyLoop buyOrder rq
          (multisetInsert SellOrderComparator o l)).trades.map Trade.sellOrderId).length),
        i < j ∧
        ((matchBuyLoop buyOrder rq
          (multisetInsert SellOrderComparator o l)).trades.map Trade.sellOrderId).get
            ⟨i, hi⟩ = e.id ∧
        ((matchBuyLoop buyOrder rq
          (multisetInsert SellOrderComparator o l)).trades.map Trade.sellOrderId).get
            ⟨j, hj⟩ = o.id) ∧
    (∀ (sellOrder : Order) (rq : ℕ) (bids : List Order),
      bids.Pairwise bidOrdered → (bids.map Order.id).Nodup →
      ∀ r1 r2, r1 ∈ bids → r2 ∈ bids → r1.price = r2.price →
        r1.timestamp < r2.timestamp →
        r2.id ∈ (matchSellLoop sellOrder rq bids).trades.map Trade.buyOrderId →
        ∃ (i j : ℕ)
          (hi : i < ((matchSellLoop sellOrder rq bids).trades.map Trade.buyOrderId).length)
          (hj : j < ((matchSellLoop sellOrder rq bids).trades.map Trade.buyOrderId).length),
          i < j ∧
          ((matchSellLoop sellOrder rq bids).trades.map Trade.buyOrderId).get ⟨i, hi⟩ = r1.id ∧
          ((matchSellLoop sellOrder rq bids).trades.map Trade.buyOrderId).get ⟨j, hj⟩ = r2.id) ∧
    (∀ (sellOrder : Order) (rq : ℕ) (l : List Order) (o e : Order),
      l.Pairwise bidOrdered →
      ((multisetInsert BuyOrderComparator o l).map Order.id).Nodup →
      e ∈ l → e.price = o.price → e.timestamp = o.timestamp →
      o.id ∈ (matchSellLoop sellOrder rq
        (multisetInsert BuyOrderComparator o l)).trades.map Trade.buyOrderId →
      ∃ (i j : ℕ)
        (hi : i < ((matchSellLoop sellOrder rq
          (multisetInsert BuyOrderComparator o l)).trades.map Trade.buyOrderId).length)
        (hj : j < ((matchSellLoop sellOrder rq
          (multisetInsert BuyOrderComparator o l)).trades.map Trade.buyOrderId).length),
        i < j ∧
        ((matchSellLoop sellOrder rq
          (multisetInsert BuyOrderComparator o l)).trades.map Trade.buyOrderId).get
            ⟨i, hi⟩ = e.id ∧
        ((matchSellLoop sellOrder rq
          (multisetInsert BuyOrderComparator o l)).trades.map Trade.buyOrderId).get
            ⟨j, hj⟩ = o.id) :=
  ⟨fun buyOrder rq asks hord hnd r1 r2 h1 h2 hp ht hmem =>
      consume_earlier_ts_asks buyOrder rq asks hord hnd r1 r2 h1 h2 hp ht hmem,
   fun buyOrder rq l o e hord hnd he hp ht hmem =>
      consume_insertion_order_asks buyOrder rq l o e hord hnd he hp ht hmem,
   fun sellOrder rq bids hord hnd r1 r2 h1 h2 hp ht hmem =>
      consume_earlier_ts_bids sellOrder rq bids hord hnd r1 r2 h1 h2 hp ht hmem,
   fun sellOrder rq l o e hord hnd he hp ht hmem =>
      consume_insertion_order_bids sellOrder rq l o e hord hnd he hp ht hmem⟩

/-- Witness for the amended C4 at a concrete input: two same-price resting
sells with timestamps 0 and 5; a crossing buy that consumes both hits the
earlier-timestamp order (id 1) strictly before the later one (id 2). -/
theorem c4_amended_price_time_priority_witness :
    ∃ (i j : ℕ)
      (hi : i < ((matchBuyLoop ⟨3, OrderSide.BUY, OrderType.LIMIT, 100, 10, 0, 9, OrderStatus.NEW⟩
        10 [⟨1, OrderSide.SELL, OrderType.LIMIT, 100, 5, 0, 0, OrderStatus.NEW⟩,
            ⟨2, OrderSide.SELL, OrderType.LIMIT, 100, 5, 0, 5, OrderStatus.NEW⟩]).trades.map
          Trade.sellOrderId).length)
      (hj : j < ((matchBuyLoop ⟨3, OrderSide.BUY, OrderType.LIMIT, 100, 10, 0, 9, OrderStatus.NEW⟩
        10 [⟨1, OrderSide.SELL, OrderType.LIMIT, 100, 5, 0, 0, OrderStatus.NEW⟩,
            ⟨2, OrderSide.SELL, OrderType.LIMIT, 100, 5, 0, 5, OrderStatus.NEW⟩]).trades.map
          Trade.sellOrderId).length),
      i < j ∧
      ((matchBuyLoop ⟨3, OrderSide.BUY, OrderType.LIMIT, 100, 10, 0, 9, OrderStatus.NEW⟩
        10 [⟨1, OrderSide.SELL, OrderType.LIMIT, 100, 5, 0, 0, OrderStatus.NEW⟩,
            ⟨2, OrderSide.SELL, OrderType.LIMIT, 100, 5, 0, 5, OrderStatus.NEW⟩]).trades.map
          Trade.sellOrderId).get ⟨i, hi⟩ =
        (⟨1, OrderSide.SELL, OrderType.LIMIT, 100, 5, 0, 0, OrderStatus.NEW⟩ : Order).id ∧
      ((matchBuyLoop ⟨3, OrderSide.BUY, OrderType.LIMIT, 100, 10, 0, 9, OrderStatus.NEW⟩
        10 [⟨1, OrderSide.SELL, OrderType.LIMIT, 100, 5, 0, 0, OrderStatus.NEW⟩,
            ⟨2, OrderSide.SELL, OrderType.LIMIT, 100, 5, 0, 5, OrderStatus.NEW⟩]).trades.map
          Trade.sellOrderId).get ⟨j, hj⟩ =
        (⟨2, OrderSide.SELL, OrderType.LIMIT, 100, 5, 0, 5, OrderStatus.NEW⟩ : Order).id :=
  c4_amended_price_time_priority.1
    ⟨3, OrderSide.BUY, OrderType.LIMIT, 100, 10, 0, 9, OrderStatus.NEW⟩ 10
    [⟨1, OrderSide.SELL, OrderType.LIMIT, 100, 5, 0, 0, OrderStatus.NEW⟩,
     ⟨2, OrderSide.SELL, OrderType.LIMIT, 100, 5, 0, 5, OrderStatus.NEW⟩]
    (by decide) (by decide)
    ⟨1, OrderSide.SELL, OrderType.LIMIT, 100, 5, 0, 0, OrderStatus.NEW⟩
    ⟨2, OrderSide.SELL, OrderType.LIMIT, 100, 5, 0, 5, OrderStatus.NEW⟩
    (by decide) (by decide) (by decide) (by decide) (by decide)

/-- C5: market orders never rest.  For every market order processed by
`addOrder` (entering fresh: unfilled, status `NEW`), the order's own side of
the book is left unchanged (it is never inserted), and if its remaining
quantity is positive after matching its status is set to `Canceled`.
Moreover, on the spec's S5 scenario — a book holding only Sell id=1 price=100
qty=5, then Market Buy id=2 qty=10 — the call yields exactly the one trade
`(buy=2, sell=1, price=100, qty=5)`, order 2 ends `Canceled` with
`filled_quantity = 5`, and the ask side (and the id index) is empty. -/
theorem c5_market_orders_never_rest :
    (∀ (book : OrderBook) (order : Order),
      order.type = OrderType.MARKET → order.filledQuantity = 0 →
      order.status = OrderStatus.NEW →
      ((order.side = OrderSide.BUY → (addOrder book order).1.buyOrders = book.buyOrders) ∧
       (order.side = OrderSide.SELL → (addOrder book order).1.sellOrders = book.sellOrders) ∧
       ((addOrder book order).2.1.getRemainingQuantity > 0 →
         (addOrder book order).2.1.status = OrderStatus.CANCELED))) ∧
    ((addOrder (addOrder emptyBook
          ⟨1, OrderSide.SELL, OrderType.LIMIT, 100, 5, 0, 0, OrderStatus.NEW⟩).1
        ⟨2, OrderSide.BUY, OrderType.MARKET, 0, 10, 0, 1, OrderStatus.NEW⟩).2.2 =
        [⟨2, 1, 100, 5⟩] ∧
      (addOrder (addOrder emptyBook
          ⟨1, OrderSide.SELL, OrderType.LIMIT, 100, 5, 0, 0, OrderStatus.NEW⟩).1
        ⟨2, OrderSide.BUY, OrderType.MARKET, 0, 10, 0, 1, OrderStatus.NEW⟩).2.1.status =
        OrderStatus.CANCELED ∧
      (addOrder (addOrder emptyBook
          ⟨1, OrderSide.SELL, OrderType.LIMIT, 100, 5, 0, 0, OrderStatus.NEW⟩).1
        ⟨2, OrderSide.BUY, OrderType.MARKET, 0, 10, 0, 1, OrderStatus.NEW⟩).2.1.filledQuantity =
        5 ∧
      (addOrder (addOrder emptyBook
          ⟨1, OrderSide.SELL, OrderType.LIMIT, 100, 5, 0, 0, OrderStatus.NEW⟩).1
        ⟨2, OrderSide.BUY, OrderType.MARKET, 0, 10, 0, 1, OrderStatus.NEW⟩).1.sellOrders =
        [] ∧
      (addOrder (addOrder emptyBook
          ⟨1, OrderSide.SELL, OrderType.LIMIT, 100, 5, 0, 0, OrderStatus.NEW⟩).1
        ⟨2, OrderSide.BUY, OrderType.MARKET, 0, 10, 0, 1, OrderStatus.NEW⟩).1.orderMap =
        []) := by
  constructor
  · intro book order htype h0 hnew
    refine ⟨?_, ?_, ?_⟩
    · intro hside
      obtain ⟨-, hbuys⟩ := addOrder_book_buy book order hside
      rw [hbuys, if_neg]
      rintro ⟨-, -, hL⟩
      rw [matchBuyOrder_fst_type, htype] at hL
      cases hL
    · intro hside
      obtain ⟨-, hsells⟩ := addOrder_book_sell book order hside
      rw [hsells, if_neg]
      rintro ⟨-, -, hL⟩
      rw [matchSellOrder_fst_type, htype] at hL
      cases hL
    · rw [addOrder_order]
      by_cases hside : order.side = OrderSide.BUY
      · rw [if_pos hside, matchBuyOrder_fst]
        have hcons := matchBuyLoop_conservation order order.quantity book.sellOrders
          (by omega) (by unfold Order.getRemainingQuantity; omega)
        have hinv := matchBuyLoop_full_inv order order.quantity book.sellOrders
          (by rw [hnew]; intro h; cases h)
        split_ifs with hc
        · intro hrem
          apply Order.cancel_status
          intro hF
          have hfull := hinv hF
          unfold Order.getRemainingQuantity at hrem
          rw [Order.cancel_filledQuantity, Order.cancel_quantity] at hrem
          omega
        · intro hrem
          push_neg at hc
          have h2 := hc htype
          rw [hcons.2.2] at h2
          omega
      · rw [if_neg hside, matchSellOrder_fst]
        have hcons := matchSellLoop_conservation order order.quantity book.buyOrders
          (by omega) (by unfold Order.getRemainingQuantity; omega)
        have hinv := matchSellLoop_full_inv order order.quantity book.buyOrders
          (by rw [hnew]; intro h; cases h)
        split_ifs with hc
        · intro hrem
          apply Order.cancel_status
          intro hF
          have hfull := hinv hF
          unfold Order.getRemainingQuantity at hrem
          rw [Order.cancel_filledQuantity, Order.cancel_quantity] at hrem
          omega
        · intro hrem
          push_neg at hc
          have h2 := hc htype
          rw [hcons.2.2] at h2
          omega
  · refine ⟨?_, ?_, ?_, ?_, ?_⟩ <;> decide

/-- Witness for C5 at a concrete input: a market buy leaves the bid side of
the book untouched. -/
theorem c5_market_orders_never_rest_witness :
    (addOrder ⟨[⟨9, OrderSide.BUY, OrderType.LIMIT, 50, 5, 0, 0, OrderStatus.NEW⟩], [], [9]⟩
        ⟨2, OrderSide.BUY, OrderType.MARKET, 0, 10, 0, 1, OrderStatus.NEW⟩).1.buyOrders =
      (⟨[⟨9, OrderSide.BUY, OrderType.LIMIT, 50, 5, 0, 0, OrderStatus.NEW⟩], [],
        [9]⟩ : OrderBook).buyOrders :=
  (c5_market_orders_never_rest.1
    ⟨[⟨9, OrderSide.BUY, OrderType.LIMIT, 50, 5, 0, 0, OrderStatus.NEW⟩], [], [9]⟩
    ⟨2, OrderSide.BUY, OrderType.MARKET, 0, 10, 0, 1, OrderStatus.NEW⟩ rfl rfl rfl).1 rfl

/-- C9 (counterexample): the top-of-book getters do not return an absent
value on an empty side.  `getBestBidPrice` returns the sentinel price `0.0`
on the empty book — the very same value it returns when a genuine bid at
price 0 rests — and `getBestAskPrice` returns the sentinel
`std::numeric_limits<double>::max()`; the spec-modelled optional interface
(`bestBidPriceSpec` / `bestAskPriceSpec`) disagrees with the code on these
inputs. -/
theorem c9_counterexample :
    getBestBidPrice emptyBook = 0 ∧
    bestBidPriceSpec emptyBook = none ∧
    getBestBidPrice (addOrderSeq emptyBook
        [⟨1, OrderSide.BUY, OrderType.LIMIT, 0, 5, 0, 0, OrderStatus.NEW⟩]) = 0 ∧
    bestBidPriceSpec (addOrderSeq emptyBook
        [⟨1, OrderSide.BUY, OrderType.LIMIT, 0, 5, 0, 0, OrderStatus.NEW⟩]) = some 0 ∧
    getBestAskPrice emptyBook = maxDoubleValue ∧
    bestAskPriceSpec emptyBook = none :=
  ⟨by decide, by decide, by decide, by decide, rfl, by decide⟩

/-- C9 (amended): on an empty bid side `getBestBidPrice` returns the
sentinel price `0.0` (not an absent value), and on an empty ask side
`getBestAskPrice` returns the sentinel `std::numeric_limits<double>::max()`;
when the side is non-empty each returns the price of that side's best (front)
resting order. -/
theorem c9_amended_sentinel_top_of_book (book : OrderBook) :
    (book.buyOrders = [] → getBestBidPrice book = 0) ∧
    (∀ o rest, book.buyOrders = o :: rest → getBestBidPrice book = o.price) ∧
    (book.sellOrders = [] → getBestAskPrice book = maxDoubleValue) ∧
    (∀ o rest, book.sellOrders = o :: rest → getBestAskPrice book = o.price) := by
  refine ⟨?_, ?_, ?_, ?_⟩
  · intro h
    unfold getBestBidPrice
    rw [h]
  · intro o rest h
    unfold getBestBidPrice
    rw [h]
  · intro h
    unfold getBestAskPrice
    rw [h]
  · intro o rest h
    unfold getBestAskPrice
    rw [h]

/-- Witness for the amended C9 at a concrete input: the empty book and a
book with one resting bid. -/
theorem c9_amended_sentinel_top_of_book_witness :
    getBestBidPrice emptyBook = 0 ∧
    getBestAskPrice emptyBook = maxDoubleValue ∧
    getBestBidPrice ⟨[⟨1, OrderSide.BUY, OrderType.LIMIT, 100, 5, 0, 0, OrderStatus.NEW⟩],
        [], [1]⟩ =
      (⟨1, OrderSide.BUY, OrderType.LIMIT, 100, 5, 0, 0, OrderStatus.NEW⟩ : Order).price :=
  ⟨(c9_amended_sentinel_top_of_book emptyBook).1 rfl,
   (c9_amended_sentinel_top_of_book emptyBook).2.2.1 rfl,
   (c9_amended_sentinel_top_of_book
      ⟨[⟨1, OrderSide.BUY, OrderType.LIMIT, 100, 5, 0, 0, OrderStatus.NEW⟩], [], [1]⟩).2.1
      ⟨1, OrderSide.BUY, OrderType.LIMIT, 100, 5, 0, 0, OrderStatus.NEW⟩ [] rfl⟩

/-- The per-trade `uint64_t` accumulation of `totalQuantityTraded` equals a
single wrapped addition of the total, as long as the starting counter value
is in `uint64_t` range. -/
lemma foldl_quantity_mod (trades : List Trade) (acc : ℕ) (hacc : acc < 2 ^ 64) :
    trades.foldl (fun a t => (a + t.quantity) % 2 ^ 64) acc =
      (acc + (trades.map Trade.quantity).sum) % 2 ^ 64 := by
  induction trades generalizing acc with
  | nil =>
    simp only [List.foldl_nil, List.map_nil, List.sum_nil, Nat.add_zero]
    exact (Nat.mod_eq_of_lt hacc).symm
  | cons t rest ih =>
    simp only [List.foldl_cons, List.map_cons, List.sum_cons]
    rw [ih _ (Nat.mod_lt _ (by norm_num)), Nat.mod_add_mod]
    rw [Nat.add_assoc]

/-- Under `noStatsOverflow`, no counter ever wraps, so all three are
non-decreasing across the sequence. -/
lemma processSeq_stats_mono_of_no_overflow (es : EngineState) (orders : List Order)
    (h : noStatsOverflow es orders) :
    es.stats.totalOrdersProcessed ≤ (processSeq es orders).stats.totalOrdersProcessed ∧
    es.stats.totalTradesExecuted ≤ (processSeq es orders).stats.totalTradesExecuted ∧
    es.stats.totalQuantityTraded ≤ (processSeq es orders).stats.totalQuantityTraded := by
  induction orders generalizing es with
  | nil => exact ⟨le_refl _, le_refl _, le_refl _⟩
  | cons o rest ih =>
    obtain ⟨⟨h1, h2, h3⟩, hrest⟩ := h
    have hstep := ih (processOrderSync es o).1 hrest
    have e1 : (processOrderSync es o).1.stats.totalOrdersProcessed =
        es.stats.totalOrdersProcessed + 1 := Nat.mod_eq_of_lt h1
    have e2 : (processOrderSync es o).1.stats.totalTradesExecuted =
        es.stats.totalTradesExecuted + ((processOrderSync es o).2.2).length :=
      Nat.mod_eq_of_lt h2
    have e3 : (processOrderSync es o).1.stats.totalQuantityTraded =
        es.stats.totalQuantityTraded +
          (((processOrderSync es o).2.2).map Trade.quantity).sum := by
      have hfold : (processOrderSync es o).1.stats.totalQuantityTraded =
          ((processOrderSync es o).2.2).foldl (fun a t => (a + t.quantity) % 2 ^ 64)
            es.stats.totalQuantityTraded := rfl
      rw [hfold, foldl_quantity_mod _ _ (by omega)]
      exact Nat.mod_eq_of_lt h3
    refine ⟨le_trans ?_ hstep.1, le_trans ?_ hstep.2.1, le_trans ?_ hstep.2.2⟩
    · rw [e1]; omega
    · rw [e2]; omega
    · rw [e3]; omega

/-- C10 (counterexample): the counters are `uint64_t` and wrap at reachable
inputs, so the exact-delta and monotonicity claim is false of the program.
Starting from a fresh engine, crossing two pairs of limit orders of quantity
`2^64 - 1` drives `totalQuantityTraded` to `2^64 - 1` and then *down* to
`2^64 - 2`: the counter decreases across the sequence, and the fourth call's
new value is not the old value plus the sum of its trade quantities. -/
theorem c10_counterexample :
    (processSeq initialEngineState
        [⟨1, OrderSide.SELL, OrderType.LIMIT, 100, 2 ^ 64 - 1, 0, 0, OrderStatus.NEW⟩,
         ⟨2, OrderSide.BUY, OrderType.LIMIT, 100, 2 ^ 64 - 1, 0, 1, OrderStatus.NEW⟩]).stats.totalQuantityTraded =
      2 ^ 64 - 1 ∧
    (processSeq initialEngineState
        [⟨1, OrderSide.SELL, OrderType.LIMIT, 100, 2 ^ 64 - 1, 0, 0, OrderStatus.NEW⟩,
         ⟨2, OrderSide.BUY, OrderType.LIMIT, 100, 2 ^ 64 - 1, 0, 1, OrderStatus.NEW⟩,
         ⟨3, OrderSide.SELL, OrderType.LIMIT, 100, 2 ^ 64 - 1, 0, 2, OrderStatus.NEW⟩,
         ⟨4, OrderSide.BUY, OrderType.LIMIT, 100, 2 ^ 64 - 1, 0, 3, OrderStatus.NEW⟩]).stats.totalQuantityTraded =
      2 ^ 64 - 2 ∧
    (2 ^ 64 - 2 : ℕ) < 2 ^ 64 - 1 ∧
    (processOrderSync
        (processSeq initialEngineState
          [⟨1, OrderSide.SELL, OrderType.LIMIT, 100, 2 ^ 64 - 1, 0, 0, OrderStatus.NEW⟩,
           ⟨2, OrderSide.BUY, OrderType.LIMIT, 100, 2 ^ 64 - 1, 0, 1, OrderStatus.NEW⟩,
           ⟨3, OrderSide.SELL, OrderType.LIMIT, 100, 2 ^ 64 - 1, 0, 2, OrderStatus.NEW⟩])
        ⟨4, OrderSide.BUY, OrderType.LIMIT, 100, 2 ^ 64 - 1, 0, 3,
          OrderStatus.NEW⟩).1.stats.totalQuantityTraded ≠
      (processSeq initialEngineState
          [⟨1, OrderSide.SELL, OrderType.LIMIT, 100, 2 ^ 64 - 1, 0, 0, OrderStatus.NEW⟩,
           ⟨2, OrderSide.BUY, OrderType.LIMIT, 100, 2 ^ 64 - 1, 0, 1, OrderStatus.NEW⟩,
           ⟨3, OrderSide.SELL, OrderType.LIMIT, 100, 2 ^ 64 - 1, 0, 2,
             OrderStatus.NEW⟩]).stats.totalQuantityTraded +
        (((processOrderSync
            (processSeq initialEngineState
              [⟨1, OrderSide.SELL, OrderType.LIMIT, 100, 2 ^ 64 - 1, 0, 0, OrderStatus.NEW⟩,
               ⟨2, OrderSide.BUY, OrderType.LIMIT, 100, 2 ^ 64 - 1, 0, 1, OrderStatus.NEW⟩,
               ⟨3, OrderSide.SELL, OrderType.LIMIT, 100, 2 ^ 64 - 1, 0, 2, OrderStatus.NEW⟩])
            ⟨4, OrderSide.BUY, OrderType.LIMIT, 100, 2 ^ 64 - 1, 0, 3,
              OrderStatus.NEW⟩).2.2).map Trade.quantity).sum := by
  refine ⟨?_, ?_, ?_, ?_⟩ <;> decide

/-- C10 (amended): statistics deltas modulo `uint64_t`.  Every
`MatchingEngine::processOrderSync` call returning trade vector `T` updates
`totalOrdersProcessed` to `(old + 1) mod 2^64`, `totalTradesExecuted` to
`(old + T.length) mod 2^64`, and `totalQuantityTraded` — accumulated per
trade, starting from an in-range counter — to `(old + Σ quantities) mod
2^64`.  Whenever the addition does not overflow `uint64_t`, the increment is
exact; and across every sequence of calls in which no counter update
overflows, all three counters are monotonically non-decreasing.  (Wraparound
is reachable, so the unconditional exact-delta and monotonicity of the
original claim fail; see the counterexample.) -/
theorem c10_amended_stats_wraparound (es : EngineState) (order : Order) :
    ((processOrderSync es order).1.stats.totalOrdersProcessed =
      (es.stats.totalOrdersProcessed + 1) % 2 ^ 64) ∧
    ((processOrderSync es order).1.stats.totalTradesExecuted =
      (es.stats.totalTradesExecuted + ((processOrderSync es order).2.2).length) % 2 ^ 64) ∧
    (es.stats.totalQuantityTraded < 2 ^ 64 →
      (processOrderSync es order).1.stats.totalQuantityTraded =
        (es.stats.totalQuantityTraded +
          (((processOrderSync es order).2.2).map Trade.quantity).sum) % 2 ^ 64) ∧
    (es.stats.totalOrdersProcessed + 1 < 2 ^ 64 →
      (processOrderSync es order).1.stats.totalOrdersProcessed =
        es.stats.totalOrdersProcessed + 1) ∧
    (es.stats.totalTradesExecuted + ((processOrderSync es order).2.2).length < 2 ^ 64 →
      (processOrderSync es order).1.stats.totalTradesExecuted =
        es.stats.totalTradesExecuted + ((processOrderSync es order).2.2).length) ∧
    (es.stats.totalQuantityTraded +
        (((processOrderSync es order).2.2).map Trade.quantity).sum < 2 ^ 64 →
      (processOrderSync es order).1.stats.totalQuantityTraded =
        es.stats.totalQuantityTraded +
          (((processOrderSync es order).2.2).map Trade.quantity).sum) ∧
    (∀ orders : List Order, noStatsOverflow es orders →
      es.stats.totalOrdersProcessed ≤ (processSeq es orders).stats.totalOrdersProcessed ∧
      es.stats.totalTradesExecuted ≤ (processSeq es orders).stats.totalTradesExecuted ∧
      es.stats.totalQuantityTraded ≤ (processSeq es orders).stats.totalQuantityTraded) := by
  refine ⟨rfl, rfl, ?_, ?_, ?_, ?_, ?_⟩
  · intro hlt
    exact foldl_quantity_mod _ _ hlt
  · intro hlt
    exact Nat.mod_eq_of_lt hlt
  · intro hlt
    exact Nat.mod_eq_of_lt hlt
  · intro hlt
    have hfold : (processOrderSync es order).1.stats.totalQuantityTraded =
        ((processOrderSync es order).2.2).foldl (fun a t => (a + t.quantity) % 2 ^ 64)
          es.stats.totalQuantityTraded := rfl
    rw [hfold, foldl_quantity_mod _ _ (by omega)]
    exact Nat.mod_eq_of_lt hlt
  · intro orders h
    exact processSeq_stats_mono_of_no_overflow es orders h

/-- Witness for the amended C10 at a concrete input: one crossing pair from
a fresh engine, where no counter overflows. -/
theorem c10_amended_stats_wraparound_witness :
    ((processOrderSync
        (processOrderSync initialEngineState
          ⟨1, OrderSide.SELL, OrderType.LIMIT, 100, 5, 0, 0, OrderStatus.NEW⟩).1
        ⟨2, OrderSide.BUY, OrderType.LIMIT, 100, 5, 0, 1,
          OrderStatus.NEW⟩).1.stats.totalQuantityTraded =
      (processOrderSync initialEngineState
          ⟨1, OrderSide.SELL, OrderType.LIMIT, 100, 5, 0, 0,
            OrderStatus.NEW⟩).1.stats.totalQuantityTraded +
        (((processOrderSync
            (processOrderSync initialEngineState
              ⟨1, OrderSide.SELL, OrderType.LIMIT, 100, 5, 0, 0, OrderStatus.NEW⟩).1
            ⟨2, OrderSide.BUY, OrderType.LIMIT, 100, 5, 0, 1,
              OrderStatus.NEW⟩).2.2).map Trade.quantity).sum) ∧
    initialEngineState.stats.totalQuantityTraded ≤
      (processSeq initialEngineState
        [⟨1, OrderSide.SELL, OrderType.LIMIT, 100, 5, 0, 0, OrderStatus.NEW⟩,
         ⟨2, OrderSide.BUY, OrderType.LIMIT, 100, 5, 0, 1,
           OrderStatus.NEW⟩]).stats.totalQuantityTraded :=
  ⟨(c10_amended_stats_wraparound
      (processOrderSync initialEngineState
        ⟨1, OrderSide.SELL, OrderType.LIMIT, 100, 5, 0, 0, OrderStatus.NEW⟩).1
      ⟨2, OrderSide.BUY, OrderType.LIMIT, 100, 5, 0, 1,
        OrderStatus.NEW⟩).2.2.2.2.2.1 (by decide),
   ((c10_amended_stats_wraparound initialEngineState
      ⟨1, OrderSide.SELL, OrderType.LIMIT, 100, 5, 0, 0, OrderStatus.NEW⟩).2.2.2.2.2.2
      [⟨1, OrderSide.SELL, OrderType.LIMIT, 100, 5, 0, 0, OrderStatus.NEW⟩,
       ⟨2, OrderSide.BUY, OrderType.LIMIT, 100, 5, 0, 1, OrderStatus.NEW⟩]
      (by decide)).2.2⟩

end Engine
